import Mathlib

/-!
Shallow embedding of the `scraping_emploie_togo` repository
(`src/storage.py`, `src/data_processor.py`, `src/scraper.py`,
`src/extract_structured_info.py`) and proofs about the claims of its
specification.  Python dictionaries become Lean structures with `Option`
fields (a `none` field is an absent or `None` entry), Python functions
become Lean functions, exceptions become `Except`, and the file system of
`finalize` becomes an association list from paths to file contents.
-/

/-! ## storage.py -/

/-- A job record as handled by `JobStorage` (`src/storage.py`).  Only the
fields the storage layer itself reads or writes are modelled; `title`
stands for the remaining payload so that two records with the same `url`
can still differ. -/
structure JobData where
  url : Option String
  title : Option String := none
  id : Option Nat := none
  added_at : Option String := none
deriving Repr, DecidableEq

/-- The in-memory state of `JobStorage`: the record list `jobs_data` and
the known-URL set `job_urls` (modelled as a list used only through
membership and insertion). -/
structure Store where
  jobs : List JobData
  job_urls : List String
deriving Repr, DecidableEq

/-- A fresh store, as built by `JobStorage.__init__` when no persisted
file exists (`load_existing_data` returns `[]`). -/
def emptyStore : Store := ⟨[], []⟩

/-- Python truthiness of `job_data.get('url')`: the key is present and the
value is a non-empty string. -/
def truthy : Option String → Bool
  | none => false
  | some s => !(s == "")

/-- `JobStorage.save_job` (storage.py lines 46-65).  `jd = none` models a
falsy `job_data` argument; `ts` models `datetime.now().isoformat()`.
Returns the Python return value together with the updated store. -/
def save_job (st : Store) (jd : Option JobData) (ts : String) : Bool × Store :=
  match jd with
  | none => (false, st)
  | some j =>
    if !(truthy j.url) then (false, st)
    else
      match j.url with
      | none => (false, st)
      | some u =>
        if st.job_urls.contains u then (false, st)
        else
          (true,
            { jobs := st.jobs ++ [{ j with id := some (st.jobs.length + 1), added_at := some ts }],
              job_urls := u :: st.job_urls })

/-- Run a sequence of `save_job` calls (each with its own timestamp). -/
def runSave (st : Store) : List (Option JobData × String) → Store
  | [] => st
  | (jd, ts) :: rest => runSave (save_job st jd ts).2 rest

/-- The urls actually stored in the record list. -/
def storeUrls (st : Store) : List String := st.jobs.filterMap JobData.url

/-- Invariant maintained by `save_job`: stored urls are pairwise distinct
and every stored url is registered in the known-URL set.  It holds for a
fresh store. -/
def StoreInv (st : Store) : Prop :=
  (storeUrls st).Nodup ∧ ∀ j ∈ st.jobs, ∀ u, j.url = some u → st.job_urls.contains u = true

/-! ### finalize / file system (storage.py lines 67-93) -/

/-- Contents of a file in the modelled file system: either the JSON
envelope written by `finalize` (kept structured instead of serialized) or
arbitrary pre-existing bytes. -/
inductive FileContent where
  | envelope (total_jobs : Nat) (last_updated source scraper_version : String)
      (jobs : List JobData) : FileContent
  | raw (s : String) : FileContent
deriving Repr, DecidableEq

/-- The file system: an association list from paths to contents. -/
abbrev FS := List (String × FileContent)

/-- Look a path up. -/
def fsGet (fs : FS) (p : String) : Option FileContent :=
  (fs.find? (fun e => e.1 == p)).map (·.2)

/-- Remove a path. -/
def fsRemove (fs : FS) (p : String) : FS :=
  fs.filter (fun e => !(e.1 == p))

/-- Create or overwrite a path. -/
def fsSet (fs : FS) (p : String) (c : FileContent) : FS :=
  (p, c) :: fsRemove fs p

/-- `os.rename src dst`: moves the file, silently replacing `dst` if it
already exists (POSIX semantics).  `finalize` only calls it when `src`
exists. -/
def fsRename (fs : FS) (src dst : String) : FS :=
  match fsGet fs src with
  | none => fs
  | some c => fsSet (fsRemove fs src) dst c

/-- `Path.with_suffix` for the paths used here: drop the extension after
the last dot of the final component and append the new suffix. -/
def withSuffix (p : String) (suffix : String) : String :=
  let cs := p.data
  let lastDot := (List.range cs.length).foldl
    (fun acc i => if cs.get? i = some '.' then some i else acc) none
  match lastDot with
  | none => p ++ suffix
  | some i => ⟨cs.take i⟩ ++ suffix

/-- Backup path used by `finalize`:
`output_file.with_suffix(f'.backup_{ts}.json')`. -/
def backupPath (output_file ts : String) : String :=
  withSuffix output_file (".backup_" ++ ts ++ ".json")

/-- `JobStorage.finalize` (storage.py lines 67-93) acting on the modelled
file system.  `ts` stands for the wall-clock instant of the call: it is
used both in the metadata envelope and in the backup file name (the code
calls `datetime.now()` twice in close succession; the backup name uses
second granularity `%Y%m%d_%H%M%S`). -/
def finalize (st : Store) (fs : FS) (output_file : String) (ts : String) : FS :=
  let fs1 :=
    if (fsGet fs output_file).isSome then
      fsRename fs output_file (backupPath output_file ts)
    else fs
  fsSet fs1 output_file
    (FileContent.envelope st.jobs.length ts "emploitogo.info" "1.0.0" st.jobs)

/-! ### Interleaved execution of `save_job` (for the concurrency claim)

`save_job` has no lock.  To talk about concurrent calls we split its body
into the atomic steps the Python interpreter actually interleaves:
membership check (line 53), id assignment (line 55), append (line 58) and
known-set insertion (line 59).  A worker executes these steps in order on
the shared store. -/

/-- Local state of one worker executing `save_job(job)` for a record whose
`url` is the truthy string `u`.  `pc` counts the atomic steps already
executed; `idv` is the locally computed id; `result` is the returned
value once the call finished. -/
structure Worker where
  u : String
  title : Option String := none
  pc : Nat := 0
  idv : Nat := 0
  result : Option Bool := none
deriving Repr, DecidableEq

/-- One atomic step of a worker inside `save_job` (body of the non-falsy
branch of storage.py lines 53-65). -/
def workerStep (ts : String) (st : Store) (w : Worker) : Store × Worker :=
  match w.pc with
  | 0 => -- line 53: membership check on the known-URL set
    if st.job_urls.contains w.u then (st, { w with pc := 4, result := some false })
    else (st, { w with pc := 1 })
  | 1 => -- line 55: id := len(jobs_data) + 1, read at this instant
    (st, { w with idv := st.jobs.length + 1, pc := 2 })
  | 2 => -- line 58: append to the shared record list
    ({ st with jobs := st.jobs ++ [{ url := some w.u, title := w.title, id := some w.idv, added_at := some ts }] },
     { w with pc := 3 })
  | 3 => -- line 59: add the url to the shared known-URL set
    ({ st with job_urls := w.u :: st.job_urls },
     { w with pc := 4, result := some true })
  | _ => (st, w)

/-- Run two workers under an explicit schedule: `false` schedules a step
of worker `a`, `true` a step of worker `b`. -/
def runSched (ts : String) : List Bool → Store × Worker × Worker → Store × Worker × Worker
  | [], s => s
  | c :: rest, (st, a, b) =>
    if c then
      let (st', b') := workerStep ts st b
      runSched ts rest (st', a, b')
    else
      let (st', a') := workerStep ts st a
      runSched ts rest (st', a', b)

/-! ## scraper.py : `get_page` (lines 36-54)

`outcomes n` is the result the network would give to attempt `n`
(0-based): `some r` models a response whose `raise_for_status()` passes,
`none` models a `requests.RequestException` on that attempt.  The return
type separates the three ways the Python function can finish:
`.error ()` models `raise`, `.ok none` models `return None`, and
`.ok (some r)` models returning the response. -/

/-- The `for attempt in range(retries)` loop of `get_page`, iterating over
the remaining attempt indices. -/
def get_page_loop (outcomes : Nat → Option Nat) (retries : Nat) :
    List Nat → Except Unit (Option Nat)
  | [] => Except.ok none          -- loop exhausted: final `return None` (line 54)
  | attempt :: _rest =>
    match outcomes attempt with
    | some r => Except.ok (some r) -- fetch succeeded: `return response` (line 46)
    | none =>
      if attempt = retries - 1 then Except.error () -- last attempt: `raise` (line 51)
      else Except.ok none          -- earlier attempt: sleep(5); `return None` (line 53)

/-- `EmploiTogoScraper.get_page` (scraper.py lines 36-54). -/
def get_page (outcomes : Nat → Option Nat) (retries : Nat := 3) : Except Unit (Option Nat) :=
  get_page_loop outcomes retries (List.range retries)

/-! ## Python character helpers

Character-level semantics of the Python string and `re` operations used by
the repository, restricted to the character repertoire this code base
manipulates (ASCII and Latin-1 letters plus the few typographic characters
occurring in `extract_structured_info.py`). -/

/-- Python's `re` whitespace class `\s` for `str` patterns (also the set
`str.strip()` removes): ASCII whitespace, the C0 separator block, and the
Unicode `White_Space` code points. -/
def pySpace (c : Char) : Bool :=
  c.val == 0x20 || (0x09 ≤ c.val && c.val ≤ 0x0d) || (0x1c ≤ c.val && c.val ≤ 0x1f) ||
  c.val == 0x85 || c.val == 0xa0 || c.val == 0x1680 ||
  (0x2000 ≤ c.val && c.val ≤ 0x200a) || c.val == 0x2028 || c.val == 0x2029 ||
  c.val == 0x202f || c.val == 0x205f || c.val == 0x3000

/-- The control characters removed by `clean_text`:
`[\x00-\x1f\x7f-\x9f]` (C0, DEL and C1). -/
def isCtrl (c : Char) : Bool :=
  c.val ≤ 0x1f || (0x7f ≤ c.val && c.val ≤ 0x9f)

/-- Python `str.lower()` on ASCII and Latin-1 letters (the repertoire used
by the tables and patterns of this repository; other code points are left
unchanged). -/
def pyLowerChar (c : Char) : Char :=
  if 0x41 ≤ c.val && c.val ≤ 0x5a then Char.ofNat (c.toNat + 32)
  else if 0xc0 ≤ c.val && c.val ≤ 0xde && c.val != 0xd7 then Char.ofNat (c.toNat + 32)
  else c

/-- Python `str.upper()` on the same repertoire (`'ß'`, which uppercases
to a two-character string, does not occur in this code base). -/
def pyUpperChar (c : Char) : Char :=
  if 0x61 ≤ c.val && c.val ≤ 0x7a then Char.ofNat (c.toNat - 32)
  else if 0xe0 ≤ c.val && c.val ≤ 0xfe && c.val != 0xf7 then Char.ofNat (c.toNat - 32)
  else if c.val == 0xff then Char.ofNat 0x178
  else c

/-- Python's `\w` (word character) on the modelled repertoire: ASCII
alphanumerics, underscore, and the Latin-1 letters. -/
def pyWordChar (c : Char) : Bool :=
  (0x30 ≤ c.val && c.val ≤ 0x39) || (0x41 ≤ c.val && c.val ≤ 0x5a) ||
  (0x61 ≤ c.val && c.val ≤ 0x7a) || c.val == 0x5f ||
  c.val == 0xaa || c.val == 0xb5 || c.val == 0xba ||
  (0xc0 ≤ c.val && c.val ≤ 0xff && c.val != 0xd7 && c.val != 0xf7)

/-- Python's `\d` restricted to ASCII digits (no non-ASCII digit occurs in
the modelled inputs). -/
def isDigitChar (c : Char) : Bool := 0x30 ≤ c.val && c.val ≤ 0x39

/-- `str.lower()`. -/
def pyLower (s : String) : String := ⟨s.data.map pyLowerChar⟩

/-- `str.upper()`. -/
def pyUpper (s : String) : String := ⟨s.data.map pyUpperChar⟩

/-- Drop matching characters from the end of a list. -/
def dropTrailing (p : Char → Bool) (cs : List Char) : List Char :=
  (cs.reverse.dropWhile p).reverse

/-- Remove characters satisfying `p` from both ends (Python
`str.strip(chars)`). -/
def stripBoth (p : Char → Bool) (cs : List Char) : List Char :=
  dropTrailing p (cs.dropWhile p)

/-- Python `str.strip()` on a character list. -/
def pyStripList (cs : List Char) : List Char := stripBoth pySpace cs

/-- Python `str.strip()`. -/
def pyStrip (s : String) : String := ⟨pyStripList s.data⟩

/-- Does `cs` start with `needle` (character-exact)? -/
def startsWithList : List Char → List Char → Bool
  | [], _ => true
  | _ :: _, [] => false
  | n :: ns, c :: cs => n == c && startsWithList ns cs

/-- Python's `needle in hay` substring test. -/
def containsList (needle : List Char) : List Char → Bool
  | [] => needle.isEmpty
  | c :: cs => startsWithList needle (c :: cs) || containsList needle cs

/-- Python's `needle in hay` on strings. -/
def pyContains (hay needle : String) : Bool := containsList needle.data hay.data

/-- Value of a list of ASCII digit characters (Python `int` on a digit
string). -/
def digitsToNat (cs : List Char) : Nat :=
  cs.foldl (fun acc c => acc * 10 + (c.toNat - 48)) 0

/-! ## A small backtracking regular-expression engine

Faithful to the fragment of Python `re` this repository uses: lazy and
greedy repetition, alternation (tried left to right), optional pieces,
case-insensitive literals, character classes, capture groups, and the
end-of-string anchor `$`.  `mtch r cs` returns every way `r` can match a
prefix of `cs`, in Python's backtracking priority order, as pairs of
(captures, remaining input); `re.search` takes the first result at the
leftmost matching position. -/

/-- Captured groups: group number paired with the captured characters. -/
abbrev Caps := List (Nat × List Char)

/-- Regular expressions. -/
inductive Re where
  | eps : Re
  | cls (p : Char → Bool) : Re
  | liti (cs : List Char) : Re
  | seq (a b : Re) : Re
  | alt (a b : Re) : Re
  | opt (r : Re) : Re
  | starG (r : Re) : Re
  | starL (r : Re) : Re
  | group (n : Nat) (r : Re) : Re
  | eol : Re

/-- Single character, case-sensitive. -/
def Re.chr (c : Char) : Re := .cls (fun x => x == c)

/-- `r+` (greedy). -/
def Re.plus (r : Re) : Re := .seq r (.starG r)

/-- Case-insensitive literal matching: returns the remaining input. -/
def stepLiti : List Char → List Char → Option (List Char)
  | [], cs => some cs
  | _ :: _, [] => none
  | l :: ls, c :: cs => if pyLowerChar l == pyLowerChar c then stepLiti ls cs else none

/-- Greedy iteration of a matching step: longest sequences of iterations
first, the empty iteration last.  Iterations that consume nothing are
discarded (Python's behaviour for repetition of a nullable piece). -/
def starGList (step : List Char → List (Caps × List Char)) :
    Nat → List Char → List (Caps × List Char)
  | 0, cs => [([], cs)]
  | fuel + 1, cs =>
    ((step cs).filter (fun r => r.2.length < cs.length)).flatMap
      (fun r => (starGList step fuel r.2).map (fun r2 => (r.1 ++ r2.1, r2.2)))
    ++ [([], cs)]

/-- Lazy iteration: the empty iteration first. -/
def starLList (step : List Char → List (Caps × List Char)) :
    Nat → List Char → List (Caps × List Char)
  | 0, cs => [([], cs)]
  | fuel + 1, cs =>
    ([], cs) ::
    ((step cs).filter (fun r => r.2.length < cs.length)).flatMap
      (fun r => (starLList step fuel r.2).map (fun r2 => (r.1 ++ r2.1, r2.2)))

/-- All matches of `r` against a prefix of `cs`, in backtracking priority
order. -/
def mtch : Re → List Char → List (Caps × List Char)
  | .eps, cs => [([], cs)]
  | .cls _, [] => []
  | .cls p, c :: cs => if p c then [([], cs)] else []
  | .liti l, cs =>
    match stepLiti l cs with
    | some rest => [([], rest)]
    | none => []
  | .seq a b, cs =>
    (mtch a cs).flatMap (fun r => (mtch b r.2).map (fun r2 => (r.1 ++ r2.1, r2.2)))
  | .alt a b, cs => mtch a cs ++ mtch b cs
  | .opt r, cs => mtch r cs ++ [([], cs)]
  | .starG r, cs => starGList (mtch r) (cs.length + 1) cs
  | .starL r, cs => starLList (mtch r) (cs.length + 1) cs
  | .group n r, cs =>
    (mtch r cs).map (fun r2 => (r2.1 ++ [(n, cs.take (cs.length - r2.2.length))], r2.2))
  | .eol, cs => if cs.isEmpty || cs == ['\n'] then [([], cs)] else []

/-- `re.search` scanning from position `i`: the first match at the
leftmost matching position.  Returns (start index, captures, input
remaining after the match). -/
def searchFrom (r : Re) : List Char → Nat → Option (Nat × Caps × List Char)
  | cs, i =>
    match mtch r cs with
    | res :: _ => some (i, res.1, res.2)
    | [] =>
      match cs with
      | [] => none
      | _ :: cs' => searchFrom r cs' (i + 1)

/-- `re.search` over a character list. -/
def reSearch (r : Re) (cs : List Char) : Option (Nat × Caps × List Char) :=
  searchFrom r cs 0

/-- Value of a capture group in a match result. -/
def lookupCap (caps : Caps) (n : Nat) : Option (List Char) :=
  (caps.find? (fun e => e.1 == n)).map (·.2)

/-- `re.search(pattern, s).group(n)` as a string (`none` when there is no
match or the group did not participate). -/
def reSearchGroup (r : Re) (s : String) (n : Nat) : Option String :=
  match reSearch r s.data with
  | none => none
  | some (_, caps, _) => (lookupCap caps n).map (fun cs => ⟨cs⟩)

/-- `re.findall` collecting capture group `n` of every non-overlapping
match, scanning left to right and resuming after each match (advancing by
one position after an empty match, as Python does). -/
def findAllGroup (r : Re) (n : Nat) : Nat → List Char → List (List Char)
  | 0, _ => []
  | fuel + 1, cs =>
    match reSearch r cs with
    | none => []
    | some (i, caps, rest) =>
      let g := (lookupCap caps n).getD []
      let tailPart :=
        if rest.length == (cs.drop i).length then cs.drop (i + 1) else rest
      g :: findAllGroup r n fuel tailPart

/-- `re.findall` on a string, collecting group `n`. -/
def pyFindAll (r : Re) (s : String) (n : Nat) : List String :=
  (findAllGroup r n (s.data.length + 1) s.data).map (fun cs => ⟨cs⟩)

/-- `re.sub(pattern, '', s)` for a pattern anchored at the start (`^...`):
at most one match, at position 0, replaced by the empty string. -/
def subStart (r : Re) (s : String) : String :=
  match mtch r s.data with
  | res :: _ => ⟨res.2⟩
  | [] => s

/-! ## data_processor.py : `JobDataProcessor` -/

/-- `re.sub(r'\s+', ' ', text)`: replace every maximal whitespace run by a
single space. -/
def collapseWs : List Char → List Char
  | [] => []
  | [c] => if pySpace c then [' '] else [c]
  | c1 :: c2 :: rest =>
    if pySpace c1 && pySpace c2 then collapseWs (c2 :: rest)
    else (if pySpace c1 then ' ' else c1) :: collapseWs (c2 :: rest)

/-- `re.sub(r'[\x00-\x1f\x7f-\x9f]', '', text)`. -/
def removeCtrl (cs : List Char) : List Char := cs.filter (fun c => !(isCtrl c))

/-- `JobDataProcessor.clean_text` (data_processor.py lines 49-60): collapse
whitespace runs, delete control characters, strip the ends. -/
def clean_text (text : String) : String :=
  if text == "" then text
  else ⟨pyStripList (removeCtrl (collapseWs text.data))⟩

/-- The `location_mapping` table (data_processor.py lines 68-78). -/
def location_mapping : List (String × String) :=
  [("lome", "Lomé"), ("lomé", "Lomé"), ("kara", "Kara"), ("sokode", "Sokodé"),
   ("sokodé", "Sokodé"), ("kpalime", "Kpalimé"), ("kpalimé", "Kpalimé"),
   ("atakpame", "Atakpamé"), ("atakpamé", "Atakpamé")]

/-- `JobDataProcessor.normalize_location` (lines 62-81). -/
def normalize_location (location : String) : String :=
  if location == "" then location
  else
    let location_lower := pyLower location
    match location_mapping.find? (fun kv => kv.1 == location_lower) with
    | some kv => kv.2
    | none => location

/-- The `contract_mapping` table (lines 88-97). -/
def contract_mapping : List (String × String) :=
  [("cdi", "CDI"), ("cdd", "CDD"), ("stage", "Stage"), ("freelance", "Freelance"),
   ("temps partiel", "Temps partiel"), ("temps plein", "Temps plein"),
   ("consultant", "Consultant"), ("bénévolat", "Bénévolat")]

/-- `JobDataProcessor.normalize_contract_type` (lines 83-100). -/
def normalize_contract_type (contract_type : String) : String :=
  if contract_type == "" then contract_type
  else
    let contract_lower := pyLower contract_type
    match contract_mapping.find? (fun kv => kv.1 == contract_lower) with
    | some kv => kv.2
    | none => contract_type

/-- The normalized-salary record built by `normalize_salary`. -/
structure SalaryNorm where
  amount : Nat
  currency : String
  period : String
  raw : String
deriving Repr, DecidableEq

/-- The first match of `\d+(?:[,\s]\d+)*` (lines 107-108). -/
def salary_number_re : Re :=
  .group 1 (.seq (Re.plus (.cls isDigitChar))
    (.starG (.seq (.cls (fun c => c == ',' || pySpace c)) (Re.plus (.cls isDigitChar)))))

/-- `JobDataProcessor.normalize_salary` (lines 102-138). -/
def normalize_salary (salary : String) : Option SalaryNorm :=
  if salary == "" then none
  else
    match reSearchGroup salary_number_re salary 1 with
    | none => none
    | some numStr =>
      -- amount_str = numbers[0].replace(',', '').replace(' ', '')
      let amount_str := numStr.data.filter (fun c => !(c == ',') && !(c == ' '))
      -- int(amount_str) raises unless the remainder is all digits
      if amount_str.isEmpty || !(amount_str.all isDigitChar) then none
      else
        let amount := digitsToNat amount_str
        let lowerS := pyLower salary
        let currency :=
          if pyContains salary "€" || pyContains lowerS "euro" then "EUR"
          else if pyContains salary "$" || pyContains lowerS "dollar" then "USD"
          else "FCFA"
        let period :=
          if pyContains lowerS "annuel" || pyContains lowerS "an" then "annuel"
          else if pyContains lowerS "journalier" || pyContains lowerS "jour" then "journalier"
          else "mensuel"
        some { amount := amount, currency := currency, period := period, raw := salary }

/-- `\d{1,2}` (greedy). -/
def digit12 : Re := .seq (.cls isDigitChar) (.opt (.cls isDigitChar))

/-- `\d{4}`. -/
def digit4 : Re :=
  .seq (.cls isDigitChar) (.seq (.cls isDigitChar) (.seq (.cls isDigitChar) (.cls isDigitChar)))

/-- `(\d{1,2})/(\d{1,2})/(\d{4})`. -/
def date_re_slash : Re :=
  .seq (.group 1 digit12) (.seq (Re.chr '/')
    (.seq (.group 2 digit12) (.seq (Re.chr '/') (.group 3 digit4))))

/-- `(\d{1,2})-(\d{1,2})-(\d{4})`. -/
def date_re_dash : Re :=
  .seq (.group 1 digit12) (.seq (Re.chr '-')
    (.seq (.group 2 digit12) (.seq (Re.chr '-') (.group 3 digit4))))

/-- `(\d{4})-(\d{1,2})-(\d{1,2})`. -/
def date_re_iso : Re :=
  .seq (.group 1 digit4) (.seq (Re.chr '-')
    (.seq (.group 2 digit12) (.seq (Re.chr '-') (.group 3 digit12))))

/-- Gregorian leap year, as `datetime` uses. -/
def leapYear (y : Nat) : Bool := (y % 4 == 0 && y % 100 != 0) || y % 400 == 0

/-- Days in a month, as `datetime` validates. -/
def daysInMonth (y m : Nat) : Nat :=
  if m == 1 || m == 3 || m == 5 || m == 7 || m == 8 || m == 10 || m == 12 then 31
  else if m == 4 || m == 6 || m == 9 || m == 11 then 30
  else if leapYear y then 29 else 28

/-- `datetime(year, month, day)` succeeds exactly on these values. -/
def validDate (y m d : Nat) : Bool :=
  1 ≤ y && y ≤ 9999 && 1 ≤ m && m ≤ 12 && 1 ≤ d && d ≤ daysInMonth y m

/-- The character of a decimal digit. -/
def digitChar : Nat → Char
  | 0 => '0' | 1 => '1' | 2 => '2' | 3 => '3' | 4 => '4'
  | 5 => '5' | 6 => '6' | 7 => '7' | 8 => '8' | 9 => '9'
  | _ => '0'

/-- Zero-padded decimal of width 2 (`%02d`, exact for the month and day
values `datetime` accepts, which never exceed two digits). -/
def pad2 (n : Nat) : String := ⟨[digitChar (n / 10 % 10), digitChar (n % 10)]⟩

/-- Zero-padded decimal of width 4 (`datetime.isoformat` prints the year
on exactly four digits; valid years never exceed 9999). -/
def pad4 (n : Nat) : String :=
  ⟨[digitChar (n / 1000 % 10), digitChar (n / 100 % 10),
    digitChar (n / 10 % 10), digitChar (n % 10)]⟩

/-- `date_obj.isoformat().split('T')[0]`. -/
def isoDate (y m d : Nat) : String := pad4 y ++ "-" ++ pad2 m ++ "-" ++ pad2 d

/-- The ordered `date_patterns` list (lines 146-150); the boolean is true
when the groups are day, month, year and false for year, month, day. -/
def date_patterns : List (Re × Bool) :=
  [(date_re_slash, true), (date_re_dash, true), (date_re_iso, false)]

/-- The pattern loop of `normalize_date` (lines 152-166): first structural
match wins, a `ValueError` from `datetime` falls through to the next
pattern. -/
def normalize_date_go (s : String) : List (Re × Bool) → Option String
  | [] => none
  | (pat, dmy) :: rest =>
    match reSearch pat s.data with
    | some (_, caps, _) =>
      let g := fun n => (lookupCap caps n).getD []
      let day := if dmy then g 1 else g 3
      let month := g 2
      let year := if dmy then g 3 else g 1
      let y := digitsToNat year
      let m := digitsToNat month
      let d := digitsToNat day
      if validDate y m d then some (isoDate y m d) else normalize_date_go s rest
    | none => normalize_date_go s rest

/-- `JobDataProcessor.normalize_date` (lines 140-168). -/
def normalize_date (date_str : String) : Option String :=
  if date_str == "" then none
  else normalize_date_go date_str date_patterns

/-- `tech_keywords` (lines 176-182). -/
def tech_keywords : List String :=
  ["python", "java", "javascript", "php", "sql", "mysql", "postgresql",
   "html", "css", "react", "angular", "vue", "node.js", "django",
   "flask", "spring", "laravel", "wordpress", "git", "docker",
   "kubernetes", "aws", "azure", "gcp", "linux", "windows",
   "photoshop", "illustrator", "figma", "sketch"]

/-- `soft_skills` (lines 185-188). -/
def soft_skills : List String :=
  ["communication", "leadership", "teamwork", "management",
   "analytique", "créatif", "autonome", "rigoureux"]

/-- `JobDataProcessor.extract_keywords` (lines 170-197). -/
def extract_keywords (description : String) : List String :=
  if description == "" then []
  else
    let description_lower := pyLower description
    (tech_keywords ++ soft_skills).filter (fun k => pyContains description_lower k)

/-- The job dictionary as `process_job_data` sees it.  An outer `none`
models an absent key; `salary_normalized` and the `*_normalized` date
fields keep an inner `Option` because the code stores `None` under those
keys when parsing fails. -/
structure Job where
  title : Option String := none
  company : Option String := none
  location : Option String := none
  description : Option String := none
  sector : Option String := none
  contract_type : Option String := none
  salary : Option String := none
  publication_date : Option String := none
  deadline : Option String := none
  salary_normalized : Option (Option SalaryNorm) := none
  publication_date_normalized : Option (Option String) := none
  deadline_normalized : Option (Option String) := none
  keywords : Option (List String) := none
deriving Repr, DecidableEq

/-- One iteration of the `text_fields` loop:
`if job_data.get(field): job_data[field] = clean_text(job_data[field])`. -/
def cleanField (v : Option String) : Option String :=
  if truthy v then v.map clean_text else v

/-- The location-normalization block (lines 27-28):
`if job_data.get('location'): job_data['location'] = normalize_location(...)`. -/
def locStep (v : Option String) : Option String :=
  if truthy v then v.map normalize_location else v

/-- The contract-type block (lines 31-32). -/
def contractStep (v : Option String) : Option String :=
  if truthy v then v.map normalize_contract_type else v

/-- The salary block (lines 35-36): when `salary` is truthy, store
`normalize_salary(salary)` under `salary_normalized`. -/
def salaryStep (v : Option String) (old : Option (Option SalaryNorm)) :
    Option (Option SalaryNorm) :=
  match v with
  | some s => if s == "" then old else some (normalize_salary s)
  | none => old

/-- One date block (lines 39-41). -/
def dateStep (v : Option String) (old : Option (Option String)) :
    Option (Option String) :=
  match v with
  | some s => if s == "" then old else some (normalize_date s)
  | none => old

/-- The keywords block (lines 44-45). -/
def kwStep (v : Option String) (old : Option (List String)) : Option (List String) :=
  match v with
  | some s => if s == "" then old else some (extract_keywords s)
  | none => old

/-- `JobDataProcessor.process_job_data` (data_processor.py lines 15-47).
The Python function mutates the dictionary block by block; the blocks
commute into one record update because each block writes its own keys and
reads only keys no later block writes: the cleaning loop (lines 21-24)
rewrites the five text fields, then the location block reads the cleaned
`location`, the contract block the untouched `contract_type`, the salary
and date blocks the untouched `salary`/`publication_date`/`deadline`, and
the keywords block the cleaned `description`. -/
def process_job_data : Option Job → Option Job
  | none => none
  | some j0 =>
    let j1 := { j0 with
      title := cleanField j0.title, company := cleanField j0.company,
      location := cleanField j0.location, description := cleanField j0.description,
      sector := cleanField j0.sector }
    some { j1 with
      location := locStep j1.location,
      contract_type := contractStep j1.contract_type,
      salary_normalized := salaryStep j1.salary j1.salary_normalized,
      publication_date_normalized := dateStep j1.publication_date j1.publication_date_normalized,
      deadline_normalized := dateStep j1.deadline j1.deadline_normalized,
      keywords := kwStep j1.description j1.keywords }

/-! ## extract_structured_info.py -/

/-- Nested alternation, tried left to right (Python `a|b|c`). -/
def Re.altList : List Re → Re
  | [] => .eps
  | [r] => r
  | r :: rest => .alt r (Re.altList rest)

/-- Case-insensitive literal from a string. -/
def Re.lit (s : String) : Re := .liti s.data

/-- `.` (any character except a newline; no DOTALL flag is used). -/
def dotCls : Re := .cls (fun c => !(c == '\n'))

/-- `\s+`. -/
def wsPlus : Re := Re.plus (.cls pySpace)

/-- `\s*`. -/
def wsStar : Re := .starG (.cls pySpace)

/-- `(.*?)` — lazy, capture as group `n`. -/
def lazyDotGroup (n : Nat) : Re := .group n (.starL dotCls)

/-- ASCII letter (`[A-Za-z]`, which is what `[A-Z]` matches under
`re.IGNORECASE`). -/
def asciiLetter (c : Char) : Bool :=
  (0x41 ≤ c.val && c.val ≤ 0x5a) || (0x61 ≤ c.val && c.val ≤ 0x7a)

/-- A letter of the modelled repertoire (Python `str.isalpha` on ASCII and
Latin-1). -/
def isAlphaPy (c : Char) : Bool := pyWordChar c && !(isDigitChar c) && !(c == '_')

/-- Keep the first occurrence of each element (`dict.fromkeys`). -/
def dedupFirstAux (seen : List String) : List String → List String
  | [] => []
  | x :: xs =>
    if seen.contains x then dedupFirstAux seen xs
    else x :: dedupFirstAux (x :: seen) xs

/-- Python `str.title()`: the first letter of every maximal run of letters
is uppercased, the others lowercased. -/
def pyTitleGo (prevAlpha : Bool) : List Char → List Char
  | [] => []
  | c :: cs =>
    let c' := if isAlphaPy c then (if prevAlpha then pyLowerChar c else pyUpperChar c) else c
    c' :: pyTitleGo (isAlphaPy c) cs

/-- Python `str.title()`. -/
def pyTitle (s : String) : String := ⟨pyTitleGo false s.data⟩

/-- `str.replace(old, new)`, left to right, non-overlapping (`old` is
never empty in this code base). -/
def replaceAux (old new : List Char) : Nat → List Char → List Char
  | 0, cs => cs
  | _ + 1, [] => []
  | fuel + 1, c :: rest =>
    if startsWithList old (c :: rest) then new ++ replaceAux old new fuel ((c :: rest).drop old.length)
    else c :: replaceAux old new fuel rest

/-- `str.replace`. -/
def pyReplace (s old new : String) : String :=
  if old.data.isEmpty then s
  else ⟨replaceAux old.data new.data s.data.length s.data⟩

/-- The `fixes` table of `fix_encoding` (extract_structured_info.py lines
8-13), in dictionary insertion order; the source repeats the key `'â€'`,
which Python collapses into the first entry. -/
def encoding_fixes : List (String × String) :=
  [("Ã©", "é"), ("Ã¨", "è"), ("Ãª", "ê"), ("Ã ", "à"), ("Ã¢", "â"),
   ("Ã»", "û"), ("Ã¼", "ü"), ("Ã§", "ç"), ("Ã«", "ë"), ("Ã¯", "ï"), ("Ã´", "ô"),
   ("â€™", "'"), ("â€“", "-"), ("â€œ", "\""), ("â€", "\""), ("â€˜", "'"), ("â€¢", "-"),
   ("â‚¬", "€"), ("â€¦", "..."), ("Â", ""), ("Ã", "à"), ("â", "à")]

/-- `unicodedata.normalize('NFKC', ·)`.  Every character produced by the
replacement table and occurring in the modelled inputs (ASCII, NFC-composed
Latin-1 letters, `€`, `•`) is NFKC-stable, so on this repertoire the
normalization is the identity. -/
def nfkc (s : String) : String := s

/-- `fix_encoding` (extract_structured_info.py lines 4-17). -/
def fix_encoding (text : String) : String :=
  if text == "" then text
  else nfkc (encoding_fixes.foldl (fun t kv => pyReplace t kv.1 kv.2) text)

/-- `re.search` for a pattern starting with `\b` followed by a word
character (used for `\brecrutement...` and the city searches): positions
preceded by a word character are skipped. -/
def searchFromWB (r : Re) : List Char → Bool → Nat → Option (Nat × Caps × List Char)
  | cs, prevW, i =>
    match (if prevW then [] else mtch r cs) with
    | res :: _ => some (i, res.1, res.2)
    | [] =>
      match cs with
      | [] => none
      | c :: cs' => searchFromWB r cs' (pyWordChar c) (i + 1)

/-- `re.search(r'\b' + p + ..., text)` for a `p` starting with a word
character. -/
def reSearchWB (r : Re) (cs : List Char) : Option (Nat × Caps × List Char) :=
  searchFromWB r cs false 0

/-- `re.search(r'\b' + v + r'\b', text, re.I)` as a boolean, for a literal
`v` that starts and ends with word characters (the city names). -/
def wordSearchGo (v : List Char) : Bool → List Char → Bool
  | _, [] => false
  | prevW, c :: rest =>
    (if prevW then false
     else
       match stepLiti v (c :: rest) with
       | some after =>
         match after with
         | [] => true
         | a :: _ => !(pyWordChar a)
       | none => false)
    || wordSearchGo v (pyWordChar c) rest

/-- Boundary-delimited case-insensitive search of a literal. -/
def wordSearchCI (v : String) (cs : List Char) : Bool := wordSearchGo v.data false cs

/-! ### `extract_job_details` (lines 19-48) -/

/-- `[A-Za-z0-9&\-\s]` (the class of the detail-page company pattern). -/
def detailsCompanyCls (c : Char) : Bool :=
  asciiLetter c || isDigitChar c || c == '&' || c == '-' || pySpace c

/-- `(le|la|l’|l\'|société|centre|groupe|compagnie)\s+([A-Z][A-Za-z0-9&\-\s]+)`
with `re.I` (so `[A-Z]` also accepts lowercase). -/
def details_company_re : Re :=
  .seq (.group 1 (Re.altList
      [Re.lit "le", Re.lit "la", Re.lit "l’", Re.lit "l'", Re.lit "société",
       Re.lit "centre", Re.lit "groupe", Re.lit "compagnie"]))
    (.seq wsPlus
      (.group 2 (.seq (.cls asciiLetter) (.starG (.cls detailsCompanyCls)))))

/-- The `villes` list (line 24). -/
def villes : List String :=
  ["Lomé", "Kara", "Sokodé", "Kpalimé", "Atakpamé", "Dapaong", "Abidjan",
   "Cotonou", "Ouagadougou", "Bamako"]

/-- `[eu]` under `re.I`. -/
def clsEU (c : Char) : Bool := c == 'e' || c == 'u' || c == 'E' || c == 'U'

/-- `[ée]` under `re.I`. -/
def clsEAccent (c : Char) : Bool := c == 'e' || c == 'é' || c == 'E' || c == 'É'

/-- The post-type alternation of line 31 (after
`\brecrutement (?:d[eu]|pour)\s+`). -/
def poste_group_re : Re :=
  .group 1 (Re.altList
    [.seq (Re.lit "stagiaire") (.opt (Re.lit "s")), Re.lit "postulant", Re.lit "agent",
     Re.lit "collaborateur", Re.lit "technicien", Re.lit "employé", Re.lit "ingénieur",
     Re.lit "commercial", Re.lit "assistant", Re.lit "manager", Re.lit "consultant",
     Re.lit "superviseur", Re.lit "chef", Re.lit "responsable", Re.lit "directeur",
     Re.lit "secrétaire", .seq (Re.lit "chargé") (.opt (.cls clsEAccent))])

/-- `recrutement (?:d[eu]|pour)\s+(...)` (the `\b` prefix is handled by
`reSearchWB`). -/
def poste_re : Re :=
  .seq (Re.lit "recrutement ")
    (.seq (.alt (.seq (Re.lit "d") (.cls clsEU)) (Re.lit "pour"))
      (.seq wsPlus poste_group_re))

/-- Python `str.capitalize()`: first character uppercased, the rest
lowercased. -/
def pyCapitalize (s : String) : String :=
  match s.data with
  | [] => s
  | c :: cs => ⟨pyUpperChar c :: cs.map pyLowerChar⟩

/-- The contract-type alternation of line 36. -/
def contrat_re : Re :=
  .group 1 (Re.altList
    [Re.lit "cdi", Re.lit "cdd", Re.lit "stage", Re.lit "bénévolat", Re.lit "intérim",
     Re.lit "freelance", Re.lit "contrat à durée déterminée",
     Re.lit "contrat à durée indéterminée"])

/-- `[a-zéû]` under `re.I`. -/
def clsAzEU (c : Char) : Bool :=
  asciiLetter c || c == 'é' || c == 'û' || c == 'É' || c == 'Û'

/-- `(?:d[ée]marrage|d[ée]but|prise de poste|à partir du)\s*[:\-]?\s*(\d{1,2}\s*[a-zéû]+\s*\d{4})`
(line 39). -/
def demarrage_re : Re :=
  .seq (Re.altList
      [.seq (Re.lit "d") (.seq (.cls clsEAccent) (Re.lit "marrage")),
       .seq (Re.lit "d") (.seq (.cls clsEAccent) (Re.lit "but")),
       Re.lit "prise de poste", Re.lit "à partir du"])
    (.seq wsStar
      (.seq (.opt (.cls (fun c => c == ':' || c == '-')))
        (.seq wsStar
          (.group 1 (.seq digit12
            (.seq wsStar (.seq (Re.plus (.cls clsAzEU)) (.seq wsStar digit4))))))))

/-- The dictionary returned by `extract_job_details`; `publication_date`
is only added later by `extract_all_structured` (hence the outer
`Option`). -/
structure JobDetails where
  entreprise : Option String
  ville : Option String
  type_de_poste : Option String
  type_de_contrat : Option String
  date_de_demarrage : Option String
  publication_date : Option (Option String) := none
deriving Repr, DecidableEq

/-- `extract_job_details` (extract_structured_info.py lines 19-48). -/
def extract_job_details (text0 : String) : JobDetails :=
  let text := fix_encoding text0
  let entreprise := (reSearchGroup details_company_re text 2).map pyStrip
  let ville := villes.find? (fun v => wordSearchCI v text.data)
  let type_de_poste0 :=
    match (reSearchWB poste_re text.data).map (fun r => (lookupCap r.2.1 1).getD []) with
    | some g => some (pyCapitalize ⟨g⟩)
    | none => none
  let type_de_poste :=
    match type_de_poste0 with
    | some p => some p
    | none =>
      if pyContains (pyLower text) "stage" || pyContains (pyLower text) "stagiaire" then
        some "Stagiaire"
      else none
  let type_de_contrat :=
    match reSearchGroup contrat_re text 1 with
    | some g => some (pyUpper g)
    | none => if pyContains (pyLower text) "stage" then some "STAGE" else none
  let date_de_demarrage := reSearchGroup demarrage_re text 1
  { entreprise := entreprise, ville := ville, type_de_poste := type_de_poste,
    type_de_contrat := type_de_contrat, date_de_demarrage := date_de_demarrage }

/-! ### `extract_required_skills` (lines 50-55) -/

/-- `(bac ?\+ ?[1-9]|licence|master|doctorat|bts|dut|dipl[ôo]me|certificat)`. -/
def diplome_re : Re :=
  .group 1 (Re.altList
    [.seq (Re.lit "bac") (.seq (.opt (Re.chr ' '))
       (.seq (Re.chr '+') (.seq (.opt (Re.chr ' '))
         (.cls (fun c => 0x31 ≤ c.val && c.val ≤ 0x39))))),
     Re.lit "licence", Re.lit "master", Re.lit "doctorat", Re.lit "bts", Re.lit "dut",
     .seq (Re.lit "dipl") (.seq (.cls (fun c => c == 'ô' || c == 'o' || c == 'Ô' || c == 'O'))
       (Re.lit "me")),
     Re.lit "certificat"])

/-- `(rigoureux|autonome|motivé|dynamique|créatif|organisé|ponctuel|esprit d’équipe|polyvalent|proactif|communication)`. -/
def qualities_re : Re :=
  .group 1 (Re.altList
    [Re.lit "rigoureux", Re.lit "autonome", Re.lit "motivé", Re.lit "dynamique",
     Re.lit "créatif", Re.lit "organisé", Re.lit "ponctuel", Re.lit "esprit d’équipe",
     Re.lit "polyvalent", Re.lit "proactif", Re.lit "communication"])

/-- `extract_required_skills` (lines 50-55). -/
def extract_required_skills (text0 : String) : Option (List String) :=
  let text := fix_encoding text0
  let diplome := pyFindAll diplome_re text 1
  let qualities := pyFindAll qualities_re text 1
  let found := dedupFirstAux [] ((diplome ++ qualities).map pyTitle)
  if found.isEmpty then none else some found

/-! ### `extract_internship_tasks` (lines 57-104) -/

/-- `(missions principales|missions|tâches principales|tâches|responsabilités)([:\s]+)`
(line 62). -/
def section_title_re : Re :=
  .seq (.group 1 (Re.altList
      [Re.lit "missions principales", Re.lit "missions", Re.lit "tâches principales",
       Re.lit "tâches", Re.lit "responsabilités"]))
    (.group 2 (Re.plus (.cls (fun c => c == ':' || pySpace c))))

/-- `\n\s*` followed by one of the `next_titles` literals (lines 70-72). -/
def nextTitleRe (body : Re) : Re := .seq (Re.chr '\n') (.seq wsStar body)

/-- The ordered `next_titles` patterns. -/
def next_title_res : List Re :=
  [nextTitleRe (Re.lit "profil"), nextTitleRe (Re.lit "expérience"),
   nextTitleRe (Re.lit "aptitude"), nextTitleRe (Re.lit "qualité"),
   nextTitleRe (Re.lit "compétence"), nextTitleRe (Re.lit "date limite"),
   nextTitleRe (.seq (Re.lit "document") (.seq (.opt (.group 1 (Re.lit "s")))
     (Re.lit " à fournir"))),
   nextTitleRe (Re.lit "pour postuler"), nextTitleRe (Re.lit "candidature")]

/-- The `for nt in next_titles` loop: the first pattern in list order that
matches anywhere, returning its `n.start()`. -/
def firstNextTitle : List Re → List Char → Option Nat
  | [], _ => none
  | r :: rest, cs =>
    match reSearch r cs with
    | some (i, _, _) => some i
    | none => firstNextTitle rest cs

/-- `[-*•]\s*(.+?)(?:\n|$)` (lines 85 and 101). -/
def bullet_re : Re :=
  .seq (.cls (fun c => c == '-' || c == '*' || c == '•'))
    (.seq wsStar (.seq (.group 1 (.seq dotCls (.starL dotCls))) (.alt (Re.chr '\n') .eol)))

/-- Split on a character class (`re.split(r'[\n\.]', ...)`). -/
def splitCls (p : Char → Bool) : List Char → List (List Char)
  | [] => [[]]
  | c :: cs =>
    match splitCls p cs with
    | [] => [[]]
    | h :: t => if p c then [] :: h :: t else (c :: h) :: t

/-- The action-verb alternation of line 95 (used as a case-insensitive
anchored prefix test; the source lists `Soutenir` twice). -/
def action_verbs : List String :=
  ["Participer", "Réaliser", "Assurer", "Animer", "Contribuer", "Préparer", "Gérer",
   "Encadrer", "Aider", "Soutenir", "Accompagner", "Élaborer", "Analyser", "Soutenir",
   "Développer", "Effectuer", "Organiser", "Coordonner", "Superviser", "Appuyer",
   "Créer", "Mettre en place", "Participate", "Support", "Lead", "Develop", "Manage",
   "Assist", "Prepare", "Write", "Design", "Test", "Deliver"]

/-- The task-introducing phrases of line 97. -/
def task_phrases : List String :=
  ["Être chargé de", "Il s'agira de", "Vous serez amené à", "La mission consiste à",
   "La mission principale est de", "Sous la direction de"]

/-- `re.match(r'^(a|b|...)', p, re.I)` as a boolean. -/
def prefixCIAny (alts : List String) (p : List Char) : Bool :=
  alts.any (fun a => (stepLiti a.data p).isSome)

/-- The phrase branch of lines 90-98. -/
def phraseTasks : List (List Char) → List String
  | [] => []
  | ph :: rest =>
    let p := pyStripList ph
    if p.length < 10 then phraseTasks rest
    else if prefixCIAny action_verbs p then (⟨p⟩ : String) :: phraseTasks rest
    else if prefixCIAny task_phrases p then (⟨p⟩ : String) :: phraseTasks rest
    else phraseTasks rest

/-- `extract_internship_tasks` (extract_structured_info.py lines 57-104). -/
def extract_internship_tasks (text0 : String) : Option (List String) :=
  let text := fix_encoding text0
  let cs := text.data
  let sectionTxt : Option (List Char) :=
    match reSearch section_title_re cs with
    | some (_, _, rest) =>
      let start := cs.length - rest.length
      let tailCs := cs.drop start
      let endRel :=
        match firstNextTitle next_title_res tailCs with
        | some e => e
        | none => tailCs.length
      some (pyStripList (tailCs.take endRel))
    | none => none
  let tasks : List String :=
    match sectionTxt with
    | some sec =>
      let bullets := (findAllGroup bullet_re 1 (sec.length + 1) sec).map (fun b => ⟨b⟩)
      if !bullets.isEmpty then
        (bullets.map pyStrip).filter (fun b => b.length > 5)
      else
        phraseTasks (splitCls (fun c => c == '\n' || c == '.') sec)
    | none =>
      let bullets := (findAllGroup bullet_re 1 (cs.length + 1) cs).map (fun b => ⟨b⟩)
      (bullets.map pyStrip).filter (fun b => b.length > 5)
  if tasks.isEmpty then none else some tasks

/-! ### `extract_application_deadline` (lines 106-109) -/

/-- `[a-zéû0-9]` under `re.I`. -/
def clsAzEU09 (c : Char) : Bool := clsAzEU c || isDigitChar c

/-- `[ /\-]`. -/
def clsDateSep (c : Char) : Bool := c == ' ' || c == '/' || c == '-'

/-- The date-token group `(\d{1,2}[ /\-][a-zéû0-9]+[ /\-]\d{4})`. -/
def deadline_token_re : Re :=
  .group 1 (.seq digit12 (.seq (.cls clsDateSep)
    (.seq (Re.plus (.cls clsAzEU09)) (.seq (.cls clsDateSep) digit4))))

/-- The full deadline pattern of line 108.  Note the trailing `|` in the
source's alternation: its last branch is the empty pattern, transcribed
here as `Re.eps`. -/
def deadline_re : Re :=
  .seq (Re.altList
      [Re.lit "date limite", Re.lit "avant le",
       .seq (Re.lit "jusqu") (.seq (.opt (.cls (fun c => c == '’' || c == '\'')))
         (Re.lit "au")),
       Re.lit "deadline", Re.lit "Dossiers de Candidatures",
       Re.lit "Date limite de dépôt des candidatures",
       Re.lit "Date limite de candidature", Re.eps])
    (.seq (.starG (.cls (fun c => c == ':' || pySpace c))) deadline_token_re)

/-- `extract_application_deadline` (lines 106-109). -/
def extract_application_deadline (text0 : String) : Option String :=
  let text := fix_encoding text0
  reSearchGroup deadline_re text 1

/-! ### `extract_application_documents` (lines 111-115) -/

/-- `(curriculum vitae|cv|lettre de motivation|copie diplôme|photo|pièce d’identité|relevé de notes|attestation)`. -/
def documents_re : Re :=
  .group 1 (Re.altList
    [Re.lit "curriculum vitae", Re.lit "cv", Re.lit "lettre de motivation",
     Re.lit "copie diplôme", Re.lit "photo", Re.lit "pièce d’identité",
     Re.lit "relevé de notes", Re.lit "attestation"])

/-- `extract_application_documents` (lines 111-115).  Python materializes
the title-cased matches through `list(set(...))`, whose iteration order is
implementation-defined; it is modelled as first-occurrence order. -/
def extract_application_documents (text0 : String) : Option (List String) :=
  let text := fix_encoding text0
  let docs := dedupFirstAux [] ((pyFindAll documents_re text 1).map pyTitle)
  if docs.isEmpty then none else some docs

/-! ### `extract_company_from_title` / `extract_date_from_title`
(lines 117-145) -/

/-- `[A-Za-z0-9&\-\séÉèêàâçôûüï]` under `re.I` (adds the uppercase forms
of the listed accented letters). -/
def titleCompanyCls (c : Char) : Bool :=
  asciiLetter c || isDigitChar c || c == '&' || c == '-' || pySpace c ||
  c == 'é' || c == 'É' || c == 'è' || c == 'È' || c == 'ê' || c == 'Ê' ||
  c == 'à' || c == 'À' || c == 'â' || c == 'Â' || c == 'ç' || c == 'Ç' ||
  c == 'ô' || c == 'Ô' || c == 'û' || c == 'Û' || c == 'ü' || c == 'Ü' ||
  c == 'ï' || c == 'Ï'

/-- The recruitment-verb alternation `(recrute|recherche|embauche|offre|propose)`. -/
def recruitVerbs (n : Nat) : Re :=
  .group n (Re.altList
    [Re.lit "recrute", Re.lit "recherche", Re.lit "embauche", Re.lit "offre",
     Re.lit "propose"])

/-- `(?i)(le|la|l’|l'|société|entreprise|groupe|compagnie)?\s*([A-Z0-9][A-Za-z0-9&\-\séÉèêàâçôûüï]+?)\s+(recrute|recherche|embauche|offre|propose)`
(line 121). -/
def title_company_re : Re :=
  .seq (.opt (.group 1 (Re.altList
      [Re.lit "le", Re.lit "la", Re.lit "l’", Re.lit "l'", Re.lit "société",
       Re.lit "entreprise", Re.lit "groupe", Re.lit "compagnie"])))
    (.seq wsStar
      (.seq (.group 2 (.seq (.cls (fun c => asciiLetter c || isDigitChar c))
          (.seq (.cls titleCompanyCls) (.starL (.cls titleCompanyCls)))))
        (.seq wsPlus (recruitVerbs 3))))

/-- `^(.*?)(recrute|recherche|embauche|offre|propose)` (line 126); the
anchor restricts matching to position 0. -/
def title_fallback_re : Re := .seq (lazyDotGroup 1) (recruitVerbs 2)

/-- `^(Le|La|L’|L'|Société|Entreprise|Groupe|Compagnie)\s+` (line 130). -/
def title_article_re : Re :=
  .seq (.group 1 (Re.altList
      [Re.lit "Le", Re.lit "La", Re.lit "L’", Re.lit "L'", Re.lit "Société",
       Re.lit "Entreprise", Re.lit "Groupe", Re.lit "Compagnie"]))
    wsPlus

/-- `extract_company_from_title` (lines 117-132). -/
def extract_company_from_title (title : Option String) : Option String :=
  match title with
  | none => none
  | some t =>
    if t == "" then none
    else
      match reSearchGroup title_company_re t 2 with
      | some g => some (pyStrip g)
      | none =>
        match mtch title_fallback_re t.data with
        | res :: _ =>
          let company0 : String := ⟨(lookupCap res.1 1).getD []⟩
          let company1 : String := ⟨stripBoth (fun c => c == ' ' || c == '-') company0.data⟩
          let company2 := subStart title_article_re company1
          if company2 == "" then none else some (pyStrip company2)
        | [] => none

/-- `(\d{1,2}[/\-]\d{1,2}[/\-]\d{2,4})` (line 138); `\d{2,4}` is transcribed
as two digits then greedily up to two more. -/
def title_date1_re : Re :=
  .group 1 (.seq digit12 (.seq (.cls (fun c => c == '/' || c == '-'))
    (.seq digit12 (.seq (.cls (fun c => c == '/' || c == '-'))
      (.seq (.cls isDigitChar) (.seq (.cls isDigitChar)
        (.opt (.seq (.cls isDigitChar) (.opt (.cls isDigitChar))))))))))

/-- `(\d{1,2}\s+[a-zéû]+\s+\d{4})` (line 142). -/
def title_date2_re : Re :=
  .group 1 (.seq digit12 (.seq wsPlus (.seq (Re.plus (.cls clsAzEU)) (.seq wsPlus digit4))))

/-- `extract_date_from_title` (lines 134-145). -/
def extract_date_from_title (title : Option String) : Option String :=
  match title with
  | none => none
  | some t =>
    if t == "" then none
    else
      match reSearchGroup title_date1_re t 1 with
      | some g => some g
      | none => reSearchGroup title_date2_re t 1

/-- The dictionary built by `extract_all_structured`. -/
structure StructuredInfo where
  job_details : JobDetails
  required_skills : Option (List String)
  internship_tasks : Option (List String)
  application_deadline : Option String
  application_documents : Option (List String)
deriving Repr, DecidableEq

/-- `extract_all_structured` (extract_structured_info.py lines 147-158). -/
def extract_all_structured (content : String) (title : Option String := none) :
    StructuredInfo :=
  let struct : StructuredInfo :=
    { job_details := extract_job_details content,
      required_skills := extract_required_skills content,
      internship_tasks := extract_internship_tasks content,
      application_deadline := extract_application_deadline content,
      application_documents := extract_application_documents content }
  if truthy title then
    { struct with job_details := { struct.job_details with
        entreprise := extract_company_from_title title,
        publication_date := some (extract_date_from_title title) } }
  else struct

/-! ## scraper.py : `_extract_company` (lines 119-143)

The loop assigns `company` only under `if match:` but then uses it
unconditionally, so Python raises `UnboundLocalError` when the first
pattern does not match; the loop state below carries the `company`
variable (`none` = not yet bound) and `Except.error` models the raised
exception. -/

/-- `\w+`. -/
def wordPlus : Re := Re.plus (.cls pyWordChar)

/-- The `company_patterns` list (scraper.py lines 124-132). -/
def company_patterns : List Re :=
  [.seq (lazyDotGroup 1) (.seq wsPlus (Re.lit "recrute")),
   .seq (Re.lit "La société") (.seq wsPlus (.seq (lazyDotGroup 1)
     (.seq wsPlus (Re.lit "recherche")))),
   .seq (Re.lit "L") (.seq (.cls (fun c => c == '\'')) (.seq (Re.lit "entreprise")
     (.seq wsPlus (.seq (lazyDotGroup 1) (.seq wsPlus (Re.lit "recrute")))))),
   .seq (Re.lit "Le groupe") (.seq wsPlus (.seq (lazyDotGroup 1)
     (.seq wsPlus (Re.lit "recrute")))),
   .seq (Re.lit "La compagnie") (.seq wsPlus (.seq (lazyDotGroup 1)
     (.seq wsPlus (Re.lit "recrute")))),
   .seq (lazyDotGroup 1) (.seq wsPlus (Re.lit "cherche")),
   .seq (Re.lit "RECRUTEMENT") (.seq (.starL dotCls)
     (.group 1 (.seq wordPlus (.starG (.seq wsPlus wordPlus)))))]

/-- `^(la|le|l\')\s+` (scraper.py line 139). -/
def company_article_re : Re :=
  .seq (.group 1 (Re.altList
      [Re.lit "la", Re.lit "le", .seq (Re.lit "l") (.cls (fun c => c == '\''))]))
    wsPlus

/-- The body of the `for pattern in company_patterns` loop (scraper.py
lines 134-143), carrying the possibly-unbound `company` variable. -/
def extract_company_go (content_text : String) :
    List Re → Option String → Except String (Option String)
  | [], _ => .ok none
  | pattern :: rest, company0 =>
    let company1 :=
      match reSearchGroup pattern content_text 1 with
      | some g => some (pyStrip g)
      | none => company0
    match company1 with
    | none => .error "UnboundLocalError"
    | some c =>
      let c2 := subStart company_article_re c
      if 2 < c2.length && c2.length < 100 then .ok (some c2)
      else extract_company_go content_text rest (some c2)

/-- `EmploiTogoScraper._extract_company` (scraper.py lines 119-143),
applied to the document text. -/
def _extract_company (content_text : String) : Except String (Option String) :=
  extract_company_go content_text company_patterns none

/-- Absence of non-whitespace control characters in a string (whitespace
control characters such as `\n` and `\t` are harmless: `clean_text`
collapses them into plain spaces before the control-character removal). -/
def CtrlOk (s : String) : Prop :=
  ∀ c ∈ s.data, isCtrl c = true → pySpace c = true

instance (s : String) : Decidable (CtrlOk s) := by unfold CtrlOk; infer_instance

/-- `CtrlOk` lifted to an optional field. -/
def CtrlOkF (v : Option String) : Prop := ∀ s, v = some s → CtrlOk s

/-- Normal form of `collapseWs` output: every whitespace character is a
plain space and no two whitespace characters are adjacent. -/
def normalWs : List Char → Bool
  | [] => true
  | [c] => !pySpace c || c == ' '
  | c1 :: c2 :: rest =>
    (!pySpace c1 || c1 == ' ') && !(pySpace c1 && pySpace c2) && normalWs (c2 :: rest)

/-- The record as `save_job` inserts it: the passed record with the `id`
and `added_at` keys set (storage.py lines 55-56). -/
def insertedRecord (j : JobData) (n : Nat) (ts : String) : JobData :=
  { j with id := some n, added_at := some ts }

/-! # Theorems -/

/-! ## C5 : `normalize_date` -/

/-- C5: `normalize_date` tries D/M/Y, D-M-Y, Y-M-D in that order with
first structural match winning, rejects invalid calendar values falling
through to the next pattern, returns null when nothing matches, and
re-emits valid matches as `YYYY-MM-DD`: concretely
`normalize_date "25/12/2025" = "2025-12-25"` (first pattern, re-emitted as
ISO), `normalize_date "2025-12-25" = "2025-12-25"` (third pattern, first
two fail structurally), `normalize_date "31/13/2025" = null` (first
pattern matches structurally, month 13 is rejected, the remaining
patterns fail) and `normalize_date "hello" = null` (no match). -/
theorem normalize_date_round_trip :
    normalize_date "25/12/2025" = some "2025-12-25"
    ∧ normalize_date "2025-12-25" = some "2025-12-25"
    ∧ normalize_date "31/13/2025" = none
    ∧ normalize_date "hello" = none := by
  refine ⟨by decide, by decide, by decide, by decide⟩

/-! ## C2 : totality of the extraction functions -/

/-- C2 (the code contradicts it): on a document whose text matches none of
the company patterns — here the single word `"Bonjour"`, which contains
neither `recrute`, `cherche` nor `recrutement` — `_extract_company` does
not return `None`: the first pattern fails to match, so the loop body
reads the never-assigned variable `company` in its `re.sub` line and
Python raises `UnboundLocalError`. -/
theorem extract_company_raises_on_no_match :
    _extract_company "Bonjour" = Except.error "UnboundLocalError" := by rfl

/-! ## C3 : `get_page` retry policy -/

/-- C3 (the code contradicts it): with `retries = 3`, a fetch that fails
transiently on the first attempt but would succeed on the second attempt
(`outcomes 0 = none`, `outcomes 1 = some 200`) is never retried:
`get_page` hits the `return None` statement placed in the `except` branch
after the back-off sleep, so it returns `None` instead of performing the
later attempts and returning the successful response.  More generally the
loop body returns on every path, so no second iteration is ever run. -/
theorem get_page_never_retries :
    (fun n => if n == 0 then none else some 200 : Nat → Option Nat) 1 = some 200
    ∧ get_page (fun n => if n == 0 then none else some 200) 3 = Except.ok none := by
  exact ⟨rfl, rfl⟩

/-! ## C6 : `extract_internship_tasks` -/

/-- C6 counterexample: the claim says bullet lines of 5 or more characters
are kept, but the code keeps a stripped bullet line only when its length
is strictly greater than 5 (`len(b.strip()) > 5`): on a section whose
only bullet is the 5-character line `abcde`, nothing qualifies and the
function returns `None` rather than `["abcde"]`. -/
theorem internship_tasks_five_char_bullet_dropped :
    ¬ (extract_internship_tasks "Missions:\n- abcde\nProfil: x" = some ["abcde"]) := by
  decide

/-- C6 (amended): on text containing a recognized section header the
section runs to the next known header or end of text, bulleted lines are
preferred, bullet lines are kept only when their stripped length exceeds
5 characters (so a 5-character bullet is discarded and a 6-character one
is kept), and phrase fragments shorter than 10 characters are discarded;
on the spec's example the two bullets are returned and nothing after
`Profil:` is included. -/
theorem internship_tasks_section_extraction :
    extract_internship_tasks
        "Missions:\n- Rédiger des rapports\n- Assurer le suivi\nProfil: développeur"
      = some ["Rédiger des rapports", "Assurer le suivi"]
    ∧ extract_internship_tasks "Missions:\n- abcde\nProfil: x" = none
    ∧ extract_internship_tasks "Missions:\n- abcdef\nProfil: x" = some ["abcdef"] := by
  refine ⟨by decide, by decide, by decide⟩

/-! ## C7 : `extract_application_deadline` -/

/-- C7 counterexample: the text `"Réunion le 12/06/2025 à Lomé"` contains
a date token but none of the deadline-introducing phrases (no `date
limite`, `avant le`, `jusqu'au`, `deadline`, `dossiers de candidatures`),
yet the function does not return null: the alternation in the source
regex ends with an empty branch (a trailing `|`), which makes the
introducing phrase optional. -/
theorem deadline_without_phrase_not_null :
    ¬ (extract_application_deadline "Réunion le 12/06/2025 à Lomé" = none) := by
  decide

/-- C7 (amended): because the phrase alternation of the deadline regex
ends with an empty branch, `extract_application_deadline` returns the
first date token of the text whether or not it follows one of the
deadline-introducing phrases, and returns null exactly when the text
contains no date token. -/
theorem deadline_returns_first_date_token :
    extract_application_deadline "Réunion le 12/06/2025 à Lomé" = some "12/06/2025"
    ∧ extract_application_deadline "Date limite: 15/07/2025" = some "15/07/2025"
    ∧ extract_application_deadline "aucune date ici" = none := by
  refine ⟨by decide, by decide, by decide⟩

/-! ## C10 : `extract_all_structured` overrides -/

/-- C10: whenever `extract_all_structured` is called with a truthy title,
the `entreprise` and `publication_date` entries of `job_details` are
unconditionally replaced by the title-derived values — including when
those are null — so the company extracted from the content text is
discarded for every record that has a title. -/
theorem extract_all_structured_title_overrides (content t : String) (h : ¬ (t = "")) :
    (extract_all_structured content (some t)).job_details.entreprise
        = extract_company_from_title (some t)
    ∧ (extract_all_structured content (some t)).job_details.publication_date
        = some (extract_date_from_title (some t)) := by
  have ht : truthy (some t) = true := by
    simp [truthy, h]
  unfold extract_all_structured
  simp [ht]

/-- C10 witness: the title `"Opportunité 2025"` contains no recruitment
verb and no date token, so both title-derived values are null, while the
content text does yield a (garbled, see `extract_job_details`) company;
the overriding fields are nevertheless the null title-derived values. -/
theorem extract_all_structured_title_overrides_witness :
    extract_company_from_title (some "Opportunité 2025") = none
    ∧ (extract_job_details "La société TogoCom recrute un agent").entreprise = some "soci"
    ∧ ((extract_all_structured "La société TogoCom recrute un agent"
          (some "Opportunité 2025")).job_details.entreprise
        = extract_company_from_title (some "Opportunité 2025")
      ∧ (extract_all_structured "La société TogoCom recrute un agent"
          (some "Opportunité 2025")).job_details.publication_date
        = some (extract_date_from_title (some "Opportunité 2025"))) :=
  ⟨by decide, by decide,
   extract_all_structured_title_overrides "La société TogoCom recrute un agent"
     "Opportunité 2025" (by decide)⟩


/-! ## C1 : the deduplicating store -/

theorem storeInv_empty : StoreInv emptyStore := by
  constructor <;> simp [storeUrls, emptyStore]

theorem save_job_insert (st : Store) (j : JobData) (u ts : String)
    (h1 : j.url = some u) (hu : ¬ (u = "")) (hc : st.job_urls.contains u = false) :
    save_job st (some j) ts
      = (true, { jobs := st.jobs ++ [insertedRecord j (st.jobs.length + 1) ts],
                 job_urls := u :: st.job_urls }) := by
  have hmem : u ∉ st.job_urls := by simpa using hc
  simp [save_job, h1, truthy, hu, hmem, insertedRecord]

theorem save_job_dup (st : Store) (j : JobData) (u ts : String)
    (h1 : j.url = some u) (hu : ¬ (u = "")) (hc : st.job_urls.contains u = true) :
    save_job st (some j) ts = (false, st) := by
  have hmem : u ∈ st.job_urls := by simpa using hc
  simp [save_job, h1, truthy, hu, hmem]

theorem save_job_preserves_inv (st : Store) (jd : Option JobData) (ts : String)
    (h : StoreInv st) : StoreInv (save_job st jd ts).2 := by
  obtain ⟨hnd, hurls⟩ := h
  cases jd with
  | none => exact ⟨hnd, hurls⟩
  | some j =>
    cases hju : j.url with
    | none =>
      simp only [save_job, hju, truthy]
      exact ⟨hnd, hurls⟩
    | some u =>
      by_cases hu : u = ""
      · simp only [save_job, hju, truthy, hu]
        simpa using ⟨hnd, hurls⟩
      · cases hc : st.job_urls.contains u with
        | true =>
          rw [save_job_dup st j u ts hju hu hc]
          exact ⟨hnd, hurls⟩
        | false =>
          rw [save_job_insert st j u ts hju hu hc]
          have hnotmem : u ∉ storeUrls st := by
            intro hmem
            obtain ⟨j0, hj0, hj0u⟩ := List.mem_filterMap.mp hmem
            have := hurls j0 hj0 u hj0u
            rw [hc] at this
            exact Bool.false_ne_true this
          constructor
          · show (List.filterMap JobData.url
              (st.jobs ++ [insertedRecord j (st.jobs.length + 1) ts])).Nodup
            rw [List.filterMap_append]
            have hsingle :
                List.filterMap JobData.url [insertedRecord j (st.jobs.length + 1) ts]
                  = [u] := by
              simp [List.filterMap, insertedRecord, hju]
            rw [hsingle]
            refine List.Nodup.append hnd (List.nodup_singleton u) ?_
            intro x hx hx'
            simp only [List.mem_singleton] at hx'
            subst hx'
            exact hnotmem hx
          · intro jj hjj v hv
            simp only [List.mem_append, List.mem_singleton] at hjj
            rcases hjj with hmem | hmem
            · have := hurls jj hmem v hv
              simp only [List.contains_cons, this, Bool.or_true]
            · subst hmem
              rw [insertedRecord] at hv
              simp only at hv
              rw [hju] at hv
              cases hv
              simp [List.contains_cons]

theorem runSave_preserves_inv (l : List (Option JobData × String)) (st : Store)
    (h : StoreInv st) : StoreInv (runSave st l) := by
  induction l generalizing st with
  | nil => exact h
  | cons p rest ih =>
    obtain ⟨jd, ts⟩ := p
    exact ih _ (save_job_preserves_inv st jd ts h)

theorem save_job_jobs_mono (st : Store) (jd : Option JobData) (ts : String) :
    ∃ rest, (save_job st jd ts).2.jobs = st.jobs ++ rest := by
  cases jd with
  | none => exact ⟨[], by simp [save_job]⟩
  | some j =>
    cases hju : j.url with
    | none => exact ⟨[], by simp [save_job, hju, truthy]⟩
    | some u =>
      by_cases hu : u = ""
      · exact ⟨[], by simp [save_job, hju, truthy, hu]⟩
      · cases hc : st.job_urls.contains u with
        | true => exact ⟨[], by rw [save_job_dup st j u ts hju hu hc]; simp⟩
        | false =>
          exact ⟨[insertedRecord j (st.jobs.length + 1) ts],
            by rw [save_job_insert st j u ts hju hu hc]⟩

theorem runSave_jobs_mono (l : List (Option JobData × String)) (st : Store) :
    ∃ rest, (runSave st l).jobs = st.jobs ++ rest := by
  induction l generalizing st with
  | nil => exact ⟨[], by simp [runSave]⟩
  | cons p rest ih =>
    obtain ⟨jd, ts⟩ := p
    obtain ⟨r1, hr1⟩ := save_job_jobs_mono st jd ts
    obtain ⟨r2, hr2⟩ := ih (save_job st jd ts).2
    exact ⟨r1 ++ r2, by rw [runSave, hr2, hr1, List.append_assoc]⟩

/-- C1: over any sequence of `save_job` calls on a store satisfying the
store invariant (for instance a fresh one), the record list never holds
two records with the same url; saving a record with a fresh url and then
a second record with the same url inserts on the first call (appending
exactly the record with `id = count + 1`), is refused on the second call,
and leaves the count at the original count plus exactly 1; every later
`save_job` sequence only appends, so an inserted record and its id are
never changed afterward. -/
theorem save_job_dedup_invariant (st : Store) (hinv : StoreInv st)
    (l : List (Option JobData × String))
    (j1 j2 : JobData) (u ts1 ts2 : String)
    (h1 : j1.url = some u) (h2 : j2.url = some u) (hu : ¬ (u = ""))
    (hnew : st.job_urls.contains u = false) :
    (storeUrls (runSave st l)).Nodup
    ∧ (save_job st (some j1) ts1).1 = true
    ∧ (save_job (save_job st (some j1) ts1).2 (some j2) ts2).1 = false
    ∧ (save_job (save_job st (some j1) ts1).2 (some j2) ts2).2.jobs.length
        = st.jobs.length + 1
    ∧ (save_job st (some j1) ts1).2.jobs
        = st.jobs ++ [insertedRecord j1 (st.jobs.length + 1) ts1]
    ∧ ∀ l', ∃ rest, (runSave (save_job st (some j1) ts1).2 l').jobs
        = (save_job st (some j1) ts1).2.jobs ++ rest := by
  have hsave1 := save_job_insert st j1 u ts1 h1 hu hnew
  have hc2 : (save_job st (some j1) ts1).2.job_urls.contains u = true := by
    rw [hsave1]
    simp [List.contains_cons]
  have hsave2 := save_job_dup (save_job st (some j1) ts1).2 j2 u ts2 h2 hu hc2
  refine ⟨(runSave_preserves_inv l st hinv).1, ?_, ?_, ?_, ?_, ?_⟩
  · rw [hsave1]
  · rw [hsave2]
  · rw [hsave2, hsave1]
    simp
  · rw [hsave1]
  · intro l'
    exact runSave_jobs_mono l' (save_job st (some j1) ts1).2

/-- C1 witness: the dedup theorem instantiated on a fresh store and a
concrete record saved twice. -/
theorem save_job_dedup_invariant_witness :
    (storeUrls (runSave emptyStore
        [(some { url := some "https://e.example/a" }, "t0")])).Nodup
    ∧ (save_job emptyStore (some { url := some "https://e.example/a" }) "t1").1 = true
    ∧ (save_job (save_job emptyStore (some { url := some "https://e.example/a" }) "t1").2
        (some { url := some "https://e.example/a", title := some "again" }) "t2").1 = false
    ∧ (save_job (save_job emptyStore (some { url := some "https://e.example/a" }) "t1").2
        (some { url := some "https://e.example/a", title := some "again" }) "t2").2.jobs.length
        = emptyStore.jobs.length + 1
    ∧ (save_job emptyStore (some { url := some "https://e.example/a" }) "t1").2.jobs
        = emptyStore.jobs
            ++ [insertedRecord { url := some "https://e.example/a" }
                  (emptyStore.jobs.length + 1) "t1"]
    ∧ ∀ l', ∃ rest,
        (runSave (save_job emptyStore (some { url := some "https://e.example/a" }) "t1").2
            l').jobs
          = (save_job emptyStore (some { url := some "https://e.example/a" }) "t1").2.jobs
              ++ rest :=
  save_job_dedup_invariant emptyStore storeInv_empty
    [(some { url := some "https://e.example/a" }, "t0")]
    { url := some "https://e.example/a" }
    { url := some "https://e.example/a", title := some "again" }
    "https://e.example/a" "t1" "t2" rfl rfl (by decide) (by decide)

/-! ## C9 : concurrent `save_job` -/

/-- C9 counterexample: `save_job` contains no lock, so its membership
check, append and known-set insertion are not one atomic critical
section.  Under the schedule A-check, B-check, A-id, A-append, A-mark,
B-id, B-append, B-mark — both checks run before either insertion — two
workers calling `save_job` with the same url BOTH insert: both calls
return `True` and the store ends with the url twice, refuting "two
workers calling save_job with the same url can never both insert". -/
theorem save_job_interleaving_double_insert :
    (runSched "t" [false, true, false, false, false, true, true, true]
        (emptyStore, { u := "https://e.example/a" }, { u := "https://e.example/a" })).2.1.result
      = some true
    ∧ (runSched "t" [false, true, false, false, false, true, true, true]
        (emptyStore, { u := "https://e.example/a" }, { u := "https://e.example/a" })).2.2.result
      = some true
    ∧ storeUrls (runSched "t" [false, true, false, false, false, true, true, true]
        (emptyStore, { u := "https://e.example/a" }, { u := "https://e.example/a" })).1
      = ["https://e.example/a", "https://e.example/a"] := by
  refine ⟨by decide, by decide, by decide⟩

/-- C9 (amended): `save_job` performs check-then-append-then-mark with no
lock of any kind; double insertion is prevented only when the two calls
do not interleave.  When worker A runs all four of its steps before
worker B starts — which is how the repository actually behaves, since
`scrape_jobs` calls `save_job` only from the single thread draining
`as_completed` — the first call inserts, the second is refused, and the
count grows by exactly one. -/
theorem save_job_sequential_single_insert (st : Store) (u ts : String)
    (t1 t2 : Option String) (hnew : st.job_urls.contains u = false) :
    (runSched ts [false, false, false, false, true]
        (st, { u := u, title := t1 }, { u := u, title := t2 })).2.1.result = some true
    ∧ (runSched ts [false, false, false, false, true]
        (st, { u := u, title := t1 }, { u := u, title := t2 })).2.2.result = some false
    ∧ (runSched ts [false, false, false, false, true]
        (st, { u := u, title := t1 }, { u := u, title := t2 })).1.jobs.length
      = st.jobs.length + 1 := by
  have hmem : u ∉ st.job_urls := by simpa using hnew
  simp [runSched, workerStep, hmem, List.contains_cons]

/-- C9 witness: the sequential-schedule theorem at a fresh store. -/
theorem save_job_sequential_single_insert_witness :
    (runSched "t" [false, false, false, false, true]
        (emptyStore, { u := "https://e.example/a", title := some "x" },
         { u := "https://e.example/a", title := some "y" })).2.1.result = some true
    ∧ (runSched "t" [false, false, false, false, true]
        (emptyStore, { u := "https://e.example/a", title := some "x" },
         { u := "https://e.example/a", title := some "y" })).2.2.result = some false
    ∧ (runSched "t" [false, false, false, false, true]
        (emptyStore, { u := "https://e.example/a", title := some "x" },
         { u := "https://e.example/a", title := some "y" })).1.jobs.length
      = emptyStore.jobs.length + 1 :=
  save_job_sequential_single_insert emptyStore "https://e.example/a" "t"
    (some "x") (some "y") (by decide)

/-! ## C8 : `finalize` backups -/

theorem fsGet_set_self (fs : FS) (p : String) (c : FileContent) :
    fsGet (fsSet fs p c) p = some c := by
  simp [fsGet, fsSet]

theorem fsGet_remove_ne (fs : FS) (p q : String) (h : ¬ (q = p)) :
    fsGet (fsRemove fs p) q = fsGet fs q := by
  induction fs with
  | nil => rfl
  | cons e rest ih =>
    by_cases he : e.1 = p
    · have : (e.1 == p) = true := by simpa using he
      simp only [fsRemove, List.filter_cons, this, Bool.not_true]
      rw [show fsGet (e :: rest) q = fsGet rest q from ?_]
      · exact ih
      · have : (e.1 == q) = false := by
          simp only [beq_eq_false_iff_ne, ne_eq]
          intro hq
          exact h (hq.symm.trans he)
        simp [fsGet, List.find?, this]
    · have hne : (e.1 == p) = false := by simpa using he
      simp only [fsRemove, List.filter_cons, hne, Bool.not_false]
      by_cases heq : e.1 = q
      · have : (e.1 == q) = true := by simpa using heq
        simp [fsGet, List.find?, this]
      · have : (e.1 == q) = false := by simpa using heq
        simp only [fsGet, List.find?, this]
        exact ih

theorem fsGet_set_ne (fs : FS) (p q : String) (c : FileContent) (h : ¬ (q = p)) :
    fsGet (fsSet fs p c) q = fsGet fs q := by
  have : (p == q) = false := by
    simp only [beq_eq_false_iff_ne, ne_eq]
    intro hq
    exact h hq.symm
  simp only [fsSet, fsGet, List.find?, this]
  exact fsGet_remove_ne fs p q h

theorem fsRename_eq (fs : FS) (src dst : String) (c : FileContent)
    (h : fsGet fs src = some c) :
    fsRename fs src dst = fsSet (fsRemove fs src) dst c := by
  simp [fsRename, h]

theorem backupPath_default (ts : String) :
    backupPath "data/jobs_data.json" ts
      = "data/jobs_data" ++ (".backup_" ++ ts ++ ".json") := rfl

theorem backupPath_default_ne_path (ts : String) :
    ¬ (backupPath "data/jobs_data.json" ts = "data/jobs_data.json") := by
  intro h
  rw [backupPath_default] at h
  have hlen := congrArg String.length h
  simp only [String.length_append] at hlen
  have e1 : ("data/jobs_data" : String).length = 14 := rfl
  have e2 : (".backup_" : String).length = 8 := rfl
  have e3 : (".json" : String).length = 5 := rfl
  have e4 : ("data/jobs_data.json" : String).length = 19 := rfl
  rw [e1, e2, e3, e4] at hlen
  omega

theorem backupPath_default_inj (ts1 ts2 : String)
    (h : backupPath "data/jobs_data.json" ts1 = backupPath "data/jobs_data.json" ts2) :
    ts1 = ts2 := by
  rw [backupPath_default, backupPath_default] at h
  have hdata := congrArg String.data h
  simp only [String.data_append] at hdata
  have h1 := List.append_cancel_left hdata
  have h2 := List.append_cancel_right h1
  have h3 := List.append_cancel_left h2
  exact String.ext h3

/-- C8 (amended): provided the two `finalize` calls carry distinct backup
timestamps (the backup name has second granularity `%Y%m%d_%H%M%S`),
calling `finalize` twice on the default store path with the store file
present creates exactly one new backup file per call — the first call
moves the pre-existing contents `c0` to the first backup path, the second
call moves the first call's own output to a second, distinct backup path —
and the first backup remains present and byte-identical after the second
call, while the store path holds the second call's output. -/
theorem finalize_backups_distinct_timestamps (fs : FS) (st1 st2 : Store)
    (c0 : FileContent) (ts1 ts2 : String)
    (h0 : fsGet fs "data/jobs_data.json" = some c0)
    (hts : ¬ (ts1 = ts2)) :
    ¬ (backupPath "data/jobs_data.json" ts1 = backupPath "data/jobs_data.json" ts2)
    ∧ fsGet (finalize st1 fs "data/jobs_data.json" ts1)
        (backupPath "data/jobs_data.json" ts1) = some c0
    ∧ fsGet (finalize st2 (finalize st1 fs "data/jobs_data.json" ts1)
          "data/jobs_data.json" ts2)
        (backupPath "data/jobs_data.json" ts1) = some c0
    ∧ fsGet (finalize st2 (finalize st1 fs "data/jobs_data.json" ts1)
          "data/jobs_data.json" ts2)
        (backupPath "data/jobs_data.json" ts2)
      = some (FileContent.envelope st1.jobs.length ts1 "emploitogo.info" "1.0.0" st1.jobs)
    ∧ fsGet (finalize st2 (finalize st1 fs "data/jobs_data.json" ts1)
          "data/jobs_data.json" ts2)
        "data/jobs_data.json"
      = some (FileContent.envelope st2.jobs.length ts2 "emploitogo.info" "1.0.0" st2.jobs) := by
  set p := "data/jobs_data.json" with hp
  set b1 := backupPath p ts1 with hb1
  set b2 := backupPath p ts2 with hb2
  have hbne : ¬ (b1 = b2) := fun h => hts (backupPath_default_inj ts1 ts2 h)
  have hb1p : ¬ (b1 = p) := backupPath_default_ne_path ts1
  have hb2p : ¬ (b2 = p) := backupPath_default_ne_path ts2
  set env1 := FileContent.envelope st1.jobs.length ts1 "emploitogo.info" "1.0.0" st1.jobs
    with henv1
  set env2 := FileContent.envelope st2.jobs.length ts2 "emploitogo.info" "1.0.0" st2.jobs
    with henv2
  have hfin1 : finalize st1 fs p ts1 = fsSet (fsSet (fsRemove fs p) b1 c0) p env1 := by
    rw [finalize]
    rw [h0]
    simp only [Option.isSome_some, if_true]
    rw [fsRename_eq fs p b1 c0 h0]
  have hget1b : fsGet (finalize st1 fs p ts1) b1 = some c0 := by
    rw [hfin1, fsGet_set_ne _ _ _ _ hb1p, fsGet_set_self]
  have hget1p : fsGet (finalize st1 fs p ts1) p = some env1 := by
    rw [hfin1, fsGet_set_self]
  have hfin2 : finalize st2 (finalize st1 fs p ts1) p ts2
      = fsSet (fsSet (fsRemove (finalize st1 fs p ts1) p) b2 env1) p env2 := by
    rw [finalize]
    rw [hget1p]
    simp only [Option.isSome_some, if_true]
    rw [fsRename_eq _ p b2 env1 hget1p]
  refine ⟨hbne, hget1b, ?_, ?_, ?_⟩
  · rw [hfin2, fsGet_set_ne _ _ _ _ hb1p, fsGet_set_ne _ _ _ _ hbne,
      fsGet_remove_ne _ _ _ hb1p]
    exact hget1b
  · rw [hfin2, fsGet_set_ne _ _ _ _ hb2p, fsGet_set_self]
  · rw [hfin2, fsGet_set_self]

/-- C8 witness: the distinct-timestamp theorem at a concrete file system
holding a prior store file. -/
theorem finalize_backups_distinct_timestamps_witness :
    ¬ (backupPath "data/jobs_data.json" "20250101_000000"
        = backupPath "data/jobs_data.json" "20250101_000001")
    ∧ fsGet (finalize (Store.mk [] []) [("data/jobs_data.json", FileContent.raw "old")]
          "data/jobs_data.json" "20250101_000000")
        (backupPath "data/jobs_data.json" "20250101_000000") = some (FileContent.raw "old")
    ∧ fsGet (finalize (Store.mk [{ url := some "u" }] ["u"])
          (finalize (Store.mk [] []) [("data/jobs_data.json", FileContent.raw "old")]
            "data/jobs_data.json" "20250101_000000")
          "data/jobs_data.json" "20250101_000001")
        (backupPath "data/jobs_data.json" "20250101_000000") = some (FileContent.raw "old")
    ∧ fsGet (finalize (Store.mk [{ url := some "u" }] ["u"])
          (finalize (Store.mk [] []) [("data/jobs_data.json", FileContent.raw "old")]
            "data/jobs_data.json" "20250101_000000")
          "data/jobs_data.json" "20250101_000001")
        (backupPath "data/jobs_data.json" "20250101_000001")
      = some (FileContent.envelope (Store.mk [] []).jobs.length "20250101_000000"
          "emploitogo.info" "1.0.0" (Store.mk [] []).jobs)
    ∧ fsGet (finalize (Store.mk [{ url := some "u" }] ["u"])
          (finalize (Store.mk [] []) [("data/jobs_data.json", FileContent.raw "old")]
            "data/jobs_data.json" "20250101_000000")
          "data/jobs_data.json" "20250101_000001")
        "data/jobs_data.json"
      = some (FileContent.envelope (Store.mk [{ url := some "u" }] ["u"]).jobs.length
          "20250101_000001" "emploitogo.info" "1.0.0"
          (Store.mk [{ url := some "u" }] ["u"]).jobs) :=
  finalize_backups_distinct_timestamps
    [("data/jobs_data.json", FileContent.raw "old")]
    (Store.mk [] []) (Store.mk [{ url := some "u" }] ["u"])
    (FileContent.raw "old") "20250101_000000" "20250101_000001"
    (by decide) (by decide)

/-- C8 counterexample: the backup name only has second granularity, so two
`finalize` calls carrying the same timestamp reuse the same backup path
and the second call's `os.rename` replaces the first backup: after the
first call the backup holds the prior contents `raw "old"`, after the
second call it no longer does — the prior backup is not preserved
byte-identical and no second backup file is created. -/
theorem finalize_same_second_clobbers_backup :
    fsGet (finalize (Store.mk [] []) [("data/jobs_data.json", FileContent.raw "old")]
          "data/jobs_data.json" "20250101_000000")
        (backupPath "data/jobs_data.json" "20250101_000000") = some (FileContent.raw "old")
    ∧ ¬ (fsGet (finalize (Store.mk [{ url := some "u" }] ["u"])
          (finalize (Store.mk [] []) [("data/jobs_data.json", FileContent.raw "old")]
            "data/jobs_data.json" "20250101_000000")
          "data/jobs_data.json" "20250101_000000")
        (backupPath "data/jobs_data.json" "20250101_000000") = some (FileContent.raw "old")) := by
  refine ⟨by decide, by decide⟩

/-! ## C4 : idempotence of `process_job_data` -/

theorem normalWs_tail (c : Char) (cs : List Char) (h : normalWs (c :: cs) = true) :
    normalWs cs = true := by
  cases cs with
  | nil => rfl
  | cons c2 rest =>
    simp only [normalWs, Bool.and_eq_true] at h
    exact h.2

theorem collapseWs_cons_head (cs : List Char) (c : Char) :
    ∃ tl, collapseWs (c :: cs) = (if pySpace c = true then ' ' else c) :: tl := by
  induction cs generalizing c with
  | nil =>
    refine ⟨[], ?_⟩
    by_cases h : pySpace c = true <;> simp [collapseWs, h]
  | cons c2 rest ih =>
    by_cases h : (pySpace c && pySpace c2) = true
    · have hc : pySpace c = true := (Bool.and_eq_true_iff.mp h).1
      have hc2 : pySpace c2 = true := (Bool.and_eq_true_iff.mp h).2
      obtain ⟨tl, htl⟩ := ih c2
      refine ⟨tl, ?_⟩
      simp [collapseWs, h, htl, hc, hc2]
    · refine ⟨collapseWs (c2 :: rest), ?_⟩
      simp [collapseWs, h]

theorem normalWs_collapseWs (cs : List Char) : normalWs (collapseWs cs) = true := by
  induction cs using collapseWs.induct with
  | case1 => rfl
  | case2 c h => simp [collapseWs, normalWs, h]
  | case3 c h => simp [collapseWs, normalWs, h]
  | case4 c1 c2 rest h ih =>
    simpa [collapseWs, h] using ih
  | case5 c1 c2 rest h ih =>
    simp only [collapseWs, h, if_false]
    obtain ⟨tl, htl⟩ := collapseWs_cons_head rest c2
    rw [htl]
    rw [htl] at ih
    simp only [normalWs, Bool.and_eq_true]
    refine ⟨⟨?_, ?_⟩, ih⟩
    · by_cases h1 : pySpace c1 = true <;> simp [h1]
    · simp only [Bool.and_eq_true, not_and] at h
      have hsp : pySpace ' ' = true := by decide
      by_cases h1 : pySpace c1 = true
      · have hws2 : pySpace c2 = false := by
          cases h2 : pySpace c2
          · rfl
          · exact absurd h2 (h h1)
        simp [h1, hws2, hsp]
      · have h1' : pySpace c1 = false := by simpa using h1
        simp [h1']

theorem collapseWs_of_normal (cs : List Char) (h : normalWs cs = true) :
    collapseWs cs = cs := by
  induction cs using collapseWs.induct with
  | case1 => rfl
  | case2 c hc =>
    simp only [normalWs, Bool.or_eq_true, Bool.not_eq_true', beq_iff_eq] at h
    rcases h with h | h
    · rw [hc] at h; cases h
    · simp [collapseWs, hc, h]
  | case3 c hc => simp [collapseWs, hc]
  | case4 c1 c2 rest hws ih =>
    exfalso
    simp only [normalWs, Bool.and_eq_true, Bool.not_eq_true'] at h
    rw [hws] at h
    exact Bool.noConfusion h.1.2
  | case5 c1 c2 rest hws ih =>
    simp only [normalWs, Bool.and_eq_true, Bool.or_eq_true, Bool.not_eq_true',
      beq_iff_eq] at h
    obtain ⟨⟨h1, _⟩, htail⟩ := h
    have hrest : collapseWs (c2 :: rest) = c2 :: rest := by
      apply ih
      exact htail
    simp only [collapseWs, hws, if_false, hrest]
    rcases h1 with h1 | h1
    · simp [h1]
    · subst h1
      simp [show pySpace ' ' = true from by decide]

theorem mem_collapseWs (cs : List Char) (c : Char) (h : c ∈ collapseWs cs) :
    c = ' ' ∨ (c ∈ cs ∧ pySpace c = false) := by
  induction cs using collapseWs.induct with
  | case1 => cases h
  | case2 c0 hc0 =>
    simp [collapseWs, hc0] at h
    exact Or.inl h
  | case3 c0 hc0 =>
    simp [collapseWs, hc0] at h
    subst h
    exact Or.inr ⟨List.mem_singleton_self c, by simpa using hc0⟩
  | case4 c1 c2 rest hws ih =>
    simp only [collapseWs, hws, if_true] at h
    rcases ih h with h' | ⟨hmem, hns⟩
    · exact Or.inl h'
    · exact Or.inr ⟨List.mem_cons_of_mem c1 hmem, hns⟩
  | case5 c1 c2 rest hws ih =>
    rw [collapseWs, if_neg hws] at h
    rcases List.mem_cons.mp h with h | h
    · by_cases h1 : pySpace c1 = true
      · rw [if_pos h1] at h
        exact Or.inl h
      · rw [if_neg h1] at h
        subst h
        exact Or.inr ⟨List.mem_cons_self _ _, by simpa using h1⟩
    · rcases ih h with h' | ⟨hmem, hns⟩
      · exact Or.inl h'
      · exact Or.inr ⟨List.mem_cons_of_mem c1 hmem, hns⟩

theorem normalWs_append_right (l1 l2 : List Char) (h : normalWs (l1 ++ l2) = true) :
    normalWs l2 = true := by
  induction l1 with
  | nil => exact h
  | cons c rest ih =>
    exact ih (normalWs_tail c (rest ++ l2) h)

theorem normalWs_append_left (l1 l2 : List Char) (h : normalWs (l1 ++ l2) = true) :
    normalWs l1 = true := by
  induction l1 with
  | nil => rfl
  | cons c rest ih =>
    cases rest with
    | nil =>
      cases l2 with
      | nil => simpa using h
      | cons d l2' =>
        simp only [List.cons_append, List.nil_append, normalWs, Bool.and_eq_true] at h
        simp only [normalWs]
        exact h.1.1
    | cons d rest' =>
      simp only [List.cons_append, normalWs, Bool.and_eq_true] at h ⊢
      exact ⟨h.1, ih (by simpa using h.2)⟩

theorem dropTrailing_append_eq (p : Char → Bool) (l : List Char) :
    dropTrailing p l ++ (l.reverse.takeWhile p).reverse = l := by
  rw [dropTrailing]
  rw [← List.reverse_append, List.takeWhile_append_dropWhile, List.reverse_reverse]

theorem dropWhile_head_false (p : Char → Bool) (l : List Char) (c : Char) (t : List Char)
    (h : List.dropWhile p l = c :: t) : p c = false := by
  induction l with
  | nil => cases h
  | cons d rest ih =>
    by_cases hd : p d = true
    · rw [List.dropWhile_cons_of_pos hd] at h
      exact ih h
    · rw [List.dropWhile_cons_of_neg hd] at h
      cases h
      simpa using hd

theorem dropWhile_idem (p : Char → Bool) (l : List Char) :
    List.dropWhile p (List.dropWhile p l) = List.dropWhile p l := by
  cases hd : List.dropWhile p l with
  | nil => rfl
  | cons c t =>
    rw [List.dropWhile_cons_of_neg]
    rw [dropWhile_head_false p l c t hd]
    exact Bool.false_ne_true

theorem dropTrailing_idem (p : Char → Bool) (l : List Char) :
    dropTrailing p (dropTrailing p l) = dropTrailing p l := by
  simp only [dropTrailing, List.reverse_reverse, dropWhile_idem]

theorem dropWhile_dropTrailing_dropWhile (p : Char → Bool) (l : List Char) :
    List.dropWhile p (dropTrailing p (List.dropWhile p l))
      = dropTrailing p (List.dropWhile p l) := by
  cases hdt : dropTrailing p (List.dropWhile p l) with
  | nil => rfl
  | cons c t =>
    have heq := dropTrailing_append_eq p (List.dropWhile p l)
    rw [hdt] at heq
    have hc : p c = false :=
      dropWhile_head_false p l c
        (t ++ ((List.dropWhile p l).reverse.takeWhile p).reverse) heq.symm
    rw [List.dropWhile_cons_of_neg]
    rw [hc]
    exact Bool.false_ne_true

theorem pyStripList_idem (cs : List Char) :
    pyStripList (pyStripList cs) = pyStripList cs := by
  simp only [pyStripList, stripBoth]
  rw [dropWhile_dropTrailing_dropWhile, dropTrailing_idem]

theorem normalWs_pyStripList (cs : List Char) (h : normalWs cs = true) :
    normalWs (pyStripList cs) = true := by
  simp only [pyStripList, stripBoth]
  have h1 : normalWs (List.dropWhile pySpace cs) = true := by
    have hsplit := List.takeWhile_append_dropWhile (p := pySpace) (l := cs)
    rw [← hsplit] at h
    exact normalWs_append_right _ _ h
  have h2 := dropTrailing_append_eq pySpace (List.dropWhile pySpace cs)
  rw [← h2] at h1
  exact normalWs_append_left _ _ h1

theorem mem_pyStripList (cs : List Char) (c : Char) (h : c ∈ pyStripList cs) : c ∈ cs := by
  simp only [pyStripList, stripBoth] at h
  have h1 : c ∈ List.dropWhile pySpace cs := by
    have h2 := dropTrailing_append_eq pySpace (List.dropWhile pySpace cs)
    rw [← h2]
    exact List.mem_append_left _ h
  have hsplit := List.takeWhile_append_dropWhile (p := pySpace) (l := cs)
  rw [← hsplit]
  exact List.mem_append_right _ h1

theorem removeCtrl_eq_self (l : List Char) (h : ∀ c ∈ l, isCtrl c = false) :
    removeCtrl l = l := by
  rw [removeCtrl, List.filter_eq_self]
  intro c hc
  rw [h c hc]
  rfl

theorem collapseWs_no_ctrl (s : String) (h : CtrlOk s) :
    ∀ c ∈ collapseWs s.data, isCtrl c = false := by
  intro c hc
  rcases mem_collapseWs s.data c hc with hsp | ⟨hmem, hns⟩
  · subst hsp
    decide
  · cases hctl : isCtrl c
    · rfl
    · rw [h c hmem hctl] at hns
      cases hns

theorem clean_text_eq_strip_collapse (s : String) (h : CtrlOk s) :
    clean_text s = ⟨pyStripList (collapseWs s.data)⟩ := by
  rw [clean_text]
  by_cases hs : s = ""
  · subst hs
    rfl
  · have : (s == "") = false := by simpa using hs
    rw [this]
    simp only [Bool.false_eq_true, if_false]
    rw [removeCtrl_eq_self _ (collapseWs_no_ctrl s h)]

theorem clean_text_fixed_point (s : String) (h : CtrlOk s) :
    clean_text (clean_text s) = clean_text s := by
  rw [clean_text_eq_strip_collapse s h]
  set d := pyStripList (collapseWs s.data) with hd
  have hmemd : ∀ c ∈ d, isCtrl c = false := by
    intro c hc
    exact collapseWs_no_ctrl s h c (mem_pyStripList _ c hc)
  have hctrlok : CtrlOk ⟨d⟩ := by
    intro c hc hctl
    rw [hmemd c hc] at hctl
    cases hctl
  rw [clean_text_eq_strip_collapse ⟨d⟩ hctrlok]
  have hnormald : normalWs d = true := by
    rw [hd]
    exact normalWs_pyStripList _ (normalWs_collapseWs s.data)
  have hdata : (String.mk d).data = d := rfl
  rw [hdata, collapseWs_of_normal d hnormald, pyStripList_idem]

theorem cleanField_idem (v : Option String) (h : CtrlOkF v) :
    cleanField (cleanField v) = cleanField v := by
  cases v with
  | none => rfl
  | some s =>
    by_cases hs : s = ""
    · subst hs
      rfl
    · have htr : truthy (some s) = true := by simpa [truthy] using hs
      simp only [cleanField, htr, if_true, Option.map_some']
      by_cases hcs : clean_text s = ""
      · have : truthy (some (clean_text s)) = false := by simp [truthy, hcs]
        simp [this]
      · have : truthy (some (clean_text s)) = true := by simp [truthy, hcs]
        simp only [this, if_true, Option.map_some', Option.some_inj]
        exact clean_text_fixed_point s (h s rfl)

theorem normalize_location_miss (s : String)
    (hf : location_mapping.find? (fun kv => kv.1 == pyLower s) = none) :
    normalize_location s = s := by
  by_cases hs : s = ""
  · subst hs; rfl
  · have hsb : (s == "") = false := by simpa using hs
    simp [normalize_location, hsb, hf]

theorem normalize_location_hit (s : String) (kv : String × String) (hs : ¬ s = "")
    (hf : location_mapping.find? (fun kv => kv.1 == pyLower s) = some kv) :
    normalize_location s = kv.2 := by
  have hsb : (s == "") = false := by simpa using hs
  simp [normalize_location, hsb, hf]

theorem normalize_location_idem (s : String) :
    normalize_location (normalize_location s) = normalize_location s := by
  by_cases hs : s = ""
  · subst hs; rfl
  · cases hf : location_mapping.find? (fun kv => kv.1 == pyLower s) with
    | none => rw [normalize_location_miss s hf, normalize_location_miss s hf]
    | some kv =>
      rw [normalize_location_hit s kv hs hf]
      have hmem := List.mem_of_find?_eq_some hf
      fin_cases hmem <;> decide

theorem normalize_location_props (s : String) (hs : ¬ s = "") (hclean : clean_text s = s) :
    ¬ (normalize_location s = "") ∧ clean_text (normalize_location s) = normalize_location s := by
  cases hf : location_mapping.find? (fun kv => kv.1 == pyLower s) with
  | none => rw [normalize_location_miss s hf]; exact ⟨hs, hclean⟩
  | some kv =>
    rw [normalize_location_hit s kv hs hf]
    have hmem := List.mem_of_find?_eq_some hf
    fin_cases hmem <;> exact ⟨by decide, by decide⟩

theorem normalize_contract_type_miss (s : String)
    (hf : contract_mapping.find? (fun kv => kv.1 == pyLower s) = none) :
    normalize_contract_type s = s := by
  by_cases hs : s = ""
  · subst hs; rfl
  · have hsb : (s == "") = false := by simpa using hs
    simp [normalize_contract_type, hsb, hf]

theorem normalize_contract_type_hit (s : String) (kv : String × String) (hs : ¬ s = "")
    (hf : contract_mapping.find? (fun kv => kv.1 == pyLower s) = some kv) :
    normalize_contract_type s = kv.2 := by
  have hsb : (s == "") = false := by simpa using hs
  simp [normalize_contract_type, hsb, hf]

theorem normalize_contract_type_idem (s : String) :
    normalize_contract_type (normalize_contract_type s) = normalize_contract_type s := by
  by_cases hs : s = ""
  · subst hs; rfl
  · cases hf : contract_mapping.find? (fun kv => kv.1 == pyLower s) with
    | none => rw [normalize_contract_type_miss s hf, normalize_contract_type_miss s hf]
    | some kv =>
      rw [normalize_contract_type_hit s kv hs hf]
      have hmem := List.mem_of_find?_eq_some hf
      fin_cases hmem <;> decide

theorem normalize_contract_type_ne_empty (s : String) (hs : ¬ s = "") :
    ¬ (normalize_contract_type s = "") := by
  cases hf : contract_mapping.find? (fun kv => kv.1 == pyLower s) with
  | none => rw [normalize_contract_type_miss s hf]; exact hs
  | some kv =>
    rw [normalize_contract_type_hit s kv hs hf]
    have hmem := List.mem_of_find?_eq_some hf
    fin_cases hmem <;> decide

theorem truthy_some_iff (s : String) : truthy (some s) = true ↔ ¬ (s = "") := by
  simp [truthy]

theorem cleanField_some_of_truthy (s : String) (ht : truthy (some s) = true) :
    cleanField (some s) = some (clean_text s) := by
  simp [cleanField, ht]

theorem cleanField_locStep (w : Option String) (hw : cleanField w = w) :
    cleanField (locStep w) = locStep w := by
  cases hww : truthy w with
  | false =>
    have hid : locStep w = w := by simp [locStep, hww]
    rw [hid]
    exact hw
  | true =>
    obtain ⟨s, rfl⟩ : ∃ s, w = some s := by
      cases w
      · simp [truthy] at hww
      · exact ⟨_, rfl⟩
    have hs : ¬ s = "" := (truthy_some_iff s).mp hww
    have hclean : clean_text s = s := by
      rw [cleanField_some_of_truthy s hww] at hw
      exact Option.some_inj.mp hw
    have hinner : locStep (some s) = some (normalize_location s) := by
      simp [locStep, hww]
    rw [hinner]
    obtain ⟨hne, hfix⟩ := normalize_location_props s hs hclean
    have ht2 : truthy (some (normalize_location s)) = true := (truthy_some_iff _).mpr hne
    rw [cleanField_some_of_truthy _ ht2, hfix]

theorem locStep_idem (w : Option String) (hw : cleanField w = w) :
    locStep (locStep w) = locStep w := by
  cases hww : truthy w with
  | false =>
    have hid : locStep w = w := by simp [locStep, hww]
    rw [hid, hid]
  | true =>
    obtain ⟨s, rfl⟩ : ∃ s, w = some s := by
      cases w
      · simp [truthy] at hww
      · exact ⟨_, rfl⟩
    have hs : ¬ s = "" := (truthy_some_iff s).mp hww
    have hclean : clean_text s = s := by
      rw [cleanField_some_of_truthy s hww] at hw
      exact Option.some_inj.mp hw
    have hinner : locStep (some s) = some (normalize_location s) := by
      simp [locStep, hww]
    rw [hinner]
    obtain ⟨hne, _⟩ := normalize_location_props s hs hclean
    have ht2 : truthy (some (normalize_location s)) = true := (truthy_some_iff _).mpr hne
    simp [locStep, ht2, normalize_location_idem]

theorem contractStep_idem (w : Option String) :
    contractStep (contractStep w) = contractStep w := by
  cases hww : truthy w with
  | false =>
    have hid : contractStep w = w := by simp [contractStep, hww]
    rw [hid, hid]
  | true =>
    obtain ⟨s, rfl⟩ : ∃ s, w = some s := by
      cases w
      · simp [truthy] at hww
      · exact ⟨_, rfl⟩
    have hs : ¬ s = "" := (truthy_some_iff s).mp hww
    have hinner : contractStep (some s) = some (normalize_contract_type s) := by
      simp [contractStep, hww]
    rw [hinner]
    have ht2 : truthy (some (normalize_contract_type s)) = true :=
      (truthy_some_iff _).mpr (normalize_contract_type_ne_empty s hs)
    simp [contractStep, ht2, normalize_contract_type_idem]

theorem salaryStep_absorb (v : Option String) (old : Option (Option SalaryNorm)) :
    salaryStep v (salaryStep v old) = salaryStep v old := by
  cases v with
  | none => rfl
  | some s =>
    by_cases hs : (s == "") = true
    · simp [salaryStep, hs]
    · simp [salaryStep, hs]

theorem dateStep_absorb (v : Option String) (old : Option (Option String)) :
    dateStep v (dateStep v old) = dateStep v old := by
  cases v with
  | none => rfl
  | some s =>
    by_cases hs : (s == "") = true
    · simp [dateStep, hs]
    · simp [dateStep, hs]

theorem kwStep_absorb (v : Option String) (old : Option (List String)) :
    kwStep v (kwStep v old) = kwStep v old := by
  cases v with
  | none => rfl
  | some s =>
    by_cases hs : (s == "") = true
    · simp [kwStep, hs]
    · simp [kwStep, hs]

/-- Normal form of `process_job_data` on a non-null record, with every
field written out. -/
theorem process_job_data_some (j : Job) :
    process_job_data (some j) = some
      { title := cleanField j.title, company := cleanField j.company,
        location := locStep (cleanField j.location),
        description := cleanField j.description, sector := cleanField j.sector,
        contract_type := contractStep j.contract_type,
        salary := j.salary, publication_date := j.publication_date,
        deadline := j.deadline,
        salary_normalized := salaryStep j.salary j.salary_normalized,
        publication_date_normalized :=
          dateStep j.publication_date j.publication_date_normalized,
        deadline_normalized := dateStep j.deadline j.deadline_normalized,
        keywords := kwStep (cleanField j.description) j.keywords } := rfl

theorem digitChar_isDigit (k : Nat) : isDigitChar (digitChar (k % 10)) = true := by
  have h : k % 10 < 10 := Nat.mod_lt _ (by omega)
  set r := k % 10 with hr
  interval_cases r <;> decide

theorem digitChar_ne_dash (k : Nat) : (digitChar (k % 10) == '-') = false := by
  have h : k % 10 < 10 := Nat.mod_lt _ (by omega)
  set r := k % 10 with hr
  interval_cases r <;> decide

theorem digitChar_ne_slash (k : Nat) : (digitChar (k % 10) == '/') = false := by
  have h : k % 10 < 10 := Nat.mod_lt _ (by omega)
  set r := k % 10 with hr
  interval_cases r <;> decide

theorem digitChar_toNat (k : Nat) : (digitChar (k % 10)).toNat = 48 + k % 10 := by
  have h : k % 10 < 10 := Nat.mod_lt _ (by omega)
  set r := k % 10 with hr
  interval_cases r <;> decide

theorem iso_data (y m dd : Nat) :
    (isoDate y m dd).data
      = [digitChar (y / 1000 % 10), digitChar (y / 100 % 10), digitChar (y / 10 % 10),
         digitChar (y % 10), '-', digitChar (m / 10 % 10), digitChar (m % 10), '-',
         digitChar (dd / 10 % 10), digitChar (dd % 10)] := rfl

theorem reSearch_slash_isoDate (y m dd : Nat) :
    reSearch date_re_slash (isoDate y m dd).data = none := by
  have e1 : isDigitChar '-' = false := by decide
  have e2 : (('-' : Char) == '/') = false := by decide
  have e3 : (('-' : Char) == '-') = true := by decide
  simp [reSearch, searchFrom, mtch, date_re_slash, digit12, digit4, Re.chr, iso_data,
    digitChar_isDigit, digitChar_ne_dash, digitChar_ne_slash, e1, e2, e3]

theorem reSearch_dash_isoDate (y m dd : Nat) :
    reSearch date_re_dash (isoDate y m dd).data = none := by
  have e1 : isDigitChar '-' = false := by decide
  have e2 : (('-' : Char) == '/') = false := by decide
  have e3 : (('-' : Char) == '-') = true := by decide
  simp [reSearch, searchFrom, mtch, date_re_dash, digit12, digit4, Re.chr, iso_data,
    digitChar_isDigit, digitChar_ne_dash, digitChar_ne_slash, e1, e2, e3]

theorem reSearch_iso_isoDate (y m dd : Nat) :
    reSearch date_re_iso (isoDate y m dd).data
      = some (0, [(1, [digitChar (y / 1000 % 10), digitChar (y / 100 % 10),
                       digitChar (y / 10 % 10), digitChar (y % 10)]),
                  (2, [digitChar (m / 10 % 10), digitChar (m % 10)]),
                  (3, [digitChar (dd / 10 % 10), digitChar (dd % 10)])], []) := by
  have e1 : isDigitChar '-' = false := by decide
  have e2 : (('-' : Char) == '/') = false := by decide
  have e3 : (('-' : Char) == '-') = true := by decide
  simp [reSearch, searchFrom, mtch, date_re_iso, digit12, digit4, Re.chr, iso_data,
    digitChar_isDigit, digitChar_ne_dash, digitChar_ne_slash, e1, e2, e3]

theorem digits4_val (y : Nat) (h : y ≤ 9999) :
    digitsToNat [digitChar (y / 1000 % 10), digitChar (y / 100 % 10),
      digitChar (y / 10 % 10), digitChar (y % 10)] = y := by
  simp only [digitsToNat, List.foldl, digitChar_toNat]
  omega

theorem digits2_val (m : Nat) (h : m ≤ 99) :
    digitsToNat [digitChar (m / 10 % 10), digitChar (m % 10)] = m := by
  simp only [digitsToNat, List.foldl, digitChar_toNat]
  omega

theorem validDate_bounds (y m dd : Nat) (h : validDate y m dd = true) :
    y ≤ 9999 ∧ m ≤ 99 ∧ dd ≤ 99 := by
  simp only [validDate, daysInMonth, leapYear, Bool.and_eq_true, decide_eq_true_eq] at h
  obtain ⟨⟨⟨⟨⟨_, hy⟩, _⟩, hm⟩, _⟩, hdd⟩ := h
  refine ⟨hy, by omega, ?_⟩
  split at hdd
  · omega
  · split at hdd
    · omega
    · split at hdd <;> omega

theorem isoDate_ne_empty (y m dd : Nat) : ¬ (isoDate y m dd = "") := by
  intro h
  have := congrArg String.data h
  rw [iso_data] at this
  cases this

theorem normalize_date_isoDate (y m dd : Nat) (hv : validDate y m dd = true) :
    normalize_date (isoDate y m dd) = some (isoDate y m dd) := by
  obtain ⟨hy, hm, hdd⟩ := validDate_bounds y m dd hv
  have hne : (isoDate y m dd == "") = false := by
    simpa using isoDate_ne_empty y m dd
  rw [normalize_date, hne]
  simp only [Bool.false_eq_true, if_false, date_patterns, normalize_date_go,
    reSearch_slash_isoDate, reSearch_dash_isoDate, reSearch_iso_isoDate]
  simp only [lookupCap, List.find?, Option.map_some', Option.getD_some,
    show ((1 : Nat) == 1) = true from rfl, show ((2 : Nat) == 1) = false from rfl,
    show ((3 : Nat) == 1) = false from rfl, show ((1 : Nat) == 2) = false from rfl,
    show ((2 : Nat) == 2) = true from rfl, show ((3 : Nat) == 2) = false from rfl,
    show ((1 : Nat) == 3) = false from rfl, show ((2 : Nat) == 3) = false from rfl,
    show ((3 : Nat) == 3) = true from rfl]
  rw [digits4_val y hy, digits2_val m hm, digits2_val dd hdd, hv]
  simp

theorem normalize_date_go_shape (pats : List (Re × Bool)) (s d : String)
    (h : normalize_date_go s pats = some d) :
    ∃ y m dd, validDate y m dd = true ∧ d = isoDate y m dd := by
  induction pats with
  | nil => cases h
  | cons p rest ih =>
    rw [normalize_date_go] at h
    cases hsearch : reSearch p.1 s.data with
    | none =>
      rw [hsearch] at h
      exact ih h
    | some r =>
      rw [hsearch] at h
      obtain ⟨i, caps, restcs⟩ := r
      dsimp only at h
      cases hp : p.2 with
      | false =>
        simp only [hp, Bool.false_eq_true, if_false] at h
        split at h
        · rename_i hvalid
          exact ⟨_, _, _, hvalid, (Option.some_inj.mp h).symm⟩
        · exact ih h
      | true =>
        simp only [hp, if_true] at h
        split at h
        · rename_i hvalid
          exact ⟨_, _, _, hvalid, (Option.some_inj.mp h).symm⟩
        · exact ih h

/-- `normalize_date` maps each of its own non-null outputs to itself: an
output is always `YYYY-MM-DD` for a calendar-valid date, the two
slash/dash patterns cannot match such a string, and the third pattern
re-parses it to the same date. -/
theorem normalize_date_self_map (s d : String) (h : normalize_date s = some d) :
    normalize_date d = some d := by
  rw [normalize_date] at h
  by_cases hs : (s == "") = true
  · rw [hs] at h
    simp at h
  · have hs' : (s == "") = false := by
      cases hbe : (s == "")
      · rfl
      · exact absurd hbe hs
    rw [hs'] at h
    simp only [Bool.false_eq_true, if_false] at h
    obtain ⟨y, m, dd, hv, rfl⟩ := normalize_date_go_shape date_patterns s d h
    exact normalize_date_isoDate y m dd hv


/-- C4 counterexample: `process_job_data` is not idempotent on all
records.  `clean_text` does not map its own outputs to themselves: on
`"a \x7f b"` the whitespace collapse leaves `"a \x7f b"`, deleting the
DEL control character then merges the two spaces into `"a  b"`, and a
second application collapses them to `"a b"`.  A record whose title is
`"a \x7f b"` therefore changes again on the second pass. -/
theorem process_job_data_not_idempotent :
    ¬ (process_job_data (process_job_data (some { title := some "a \x7f b" }))
        = process_job_data (some { title := some "a \x7f b" })) := by
  decide

/-- C4 (amended): record normalization is idempotent on every record
whose text fields contain no control character outside whitespace
(`clean_text` fails idempotence only when deleting a control character
merges two whitespace runs); moreover `normalize_location`,
`normalize_contract_type` and `normalize_date` map their own outputs to
themselves, with unrecognized values passing through unchanged, and the
`salary_normalized`, `*_normalized` and `keywords` values are recomputed
deterministically from raw fields the first pass does not modify. -/
theorem process_job_data_idempotent (j : Job)
    (ht : CtrlOkF j.title) (hc : CtrlOkF j.company) (hl : CtrlOkF j.location)
    (hd : CtrlOkF j.description) (hs : CtrlOkF j.sector) :
    (process_job_data (process_job_data (some j)) = process_job_data (some j))
    ∧ (∀ s, normalize_location (normalize_location s) = normalize_location s)
    ∧ (∀ s, normalize_contract_type (normalize_contract_type s)
        = normalize_contract_type s)
    ∧ (∀ s d, normalize_date s = some d → normalize_date d = some d)
    ∧ (∀ s, location_mapping.find? (fun kv => kv.1 == pyLower s) = none →
        normalize_location s = s) := by
  refine ⟨?_, normalize_location_idem, normalize_contract_type_idem,
    normalize_date_self_map, normalize_location_miss⟩
  rw [process_job_data_some j, process_job_data_some]
  refine congrArg some ?_
  have hwl := cleanField_idem j.location hl
  have hwd := cleanField_idem j.description hd
  rw [cleanField_idem j.title ht, cleanField_idem j.company hc,
    cleanField_locStep _ hwl, locStep_idem _ hwl, hwd,
    cleanField_idem j.sector hs, contractStep_idem j.contract_type,
    salaryStep_absorb j.salary j.salary_normalized,
    dateStep_absorb j.publication_date j.publication_date_normalized,
    dateStep_absorb j.deadline j.deadline_normalized,
    kwStep_absorb (cleanField j.description) j.keywords]

/-- C4 witness: the idempotence theorem at a concrete record whose text
fields are control-character-free. -/
theorem process_job_data_idempotent_witness :
    (process_job_data (process_job_data (some
        { title := some "  Dev   Python ", location := some "lome",
          contract_type := some "cdi", salary := some "250 000 FCFA",
          description := some "python et java",
          publication_date := some "25/12/2025", deadline := some "31/13/2025" }))
      = process_job_data (some
        { title := some "  Dev   Python ", location := some "lome",
          contract_type := some "cdi", salary := some "250 000 FCFA",
          description := some "python et java",
          publication_date := some "25/12/2025", deadline := some "31/13/2025" }))
    ∧ (∀ s, normalize_location (normalize_location s) = normalize_location s)
    ∧ (∀ s, normalize_contract_type (normalize_contract_type s)
        = normalize_contract_type s)
    ∧ (∀ s d, normalize_date s = some d → normalize_date d = some d)
    ∧ (∀ s, location_mapping.find? (fun kv => kv.1 == pyLower s) = none →
        normalize_location s = s) :=
  process_job_data_idempotent
    { title := some "  Dev   Python ", location := some "lome",
      contract_type := some "cdi", salary := some "250 000 FCFA",
      description := some "python et java",
      publication_date := some "25/12/2025", deadline := some "31/13/2025" }
    (fun s hs => by cases hs; decide) (fun s hs => by cases hs)
    (fun s hs => by cases hs; decide) (fun s hs => by cases hs; decide)
    (fun s hs => by cases hs)
